import Mathlib

/-!
Cloudflare exporter: the Prometheus collector (`collector.go`).

A shallow embedding of `collector.go`:

* the descriptor catalog built by `newCloudflareCollector` and sent by `Describe`;
* the body of the goroutine that `Collect` starts for every zone (`zoneUnit`);
* `Collect` itself as a step relation over the main routine, the goroutines it
  starts, the `sync.WaitGroup` counter and the log of sends on the metric channel.

What the collector calls but does not define (the two fetch functions, the
`float64` conversion, the shape of the totals record) is collected in `World`
and in the records marked as modelled from the specification. Both fetch functions
are taken to return a value, and every send on the metric channel is taken to be
received; `collector.go` has no code for a fetch that fails.
-/

namespace CloudflareExporter

/-! ## Prometheus client: descriptors and constant metrics -/

/-- A metric descriptor, `prometheus.Desc`: the fully qualified name, the help text,
the ordered names of the variable labels and the constant labels. -/
structure Desc where
  fqName : String
  help : String
  variableLabels : List String
  constLabels : List (String × String)
deriving DecidableEq, Repr

/-- The constructor `prometheus.NewDesc(fqName, help, variableLabels, constLabels)`. -/
def NewDesc (fqName help : String) (variableLabels : List String)
    (constLabels : List (String × String)) : Desc :=
  { fqName := fqName, help := help, variableLabels := variableLabels, constLabels := constLabels }

/-- The value types of the client library, `prometheus.ValueType`. -/
inductive ValueType where
  | CounterValue
  | GaugeValue
  | UntypedValue
deriving DecidableEq, Repr

/-- A constant metric, as built by `prometheus.MustNewConstMetric`: the descriptor,
the value type, the value (of the float type `F`) and the label values. -/
structure Metric (F : Type) where
  desc : Desc
  valType : ValueType
  val : F
  labelValues : List String
deriving DecidableEq, Repr

/-- The call `prometheus.MustNewConstMetric(desc, valueType, value, labelValues...)`.
The client checks that there are as many label values as the descriptor has variable
labels and panics otherwise; `none` stands for that panic. -/
def MustNewConstMetric {F : Type} (desc : Desc) (valueType : ValueType) (value : F)
    (labelValues : List String) : Option (Metric F) :=
  if labelValues.length = desc.variableLabels.length then
    some { desc := desc, valType := valueType, val := value, labelValues := labelValues }
  else
    none

/-! ## The collector and its catalog -/

/-- The struct `CloudflareCollector`: sixteen descriptor fields. -/
structure CloudflareCollector where
  zoneRequestTotal : Desc
  zoneRequestCached : Desc
  zoneRequestUncached : Desc
  zoneRequestSSLEncrypted : Desc
  zoneRequestSSLUnencrypted : Desc
  zoneRequestContentType : Desc
  zoneRequestCountry : Desc
  zoneRequestHTTPStatus : Desc
  zoneBandwidthTotal : Desc
  zoneBandwidthCached : Desc
  zoneBandwidthUncached : Desc
  zoneBandwidthSSLEncrypted : Desc
  zoneBandwidthSSLUnencrypted : Desc
  zoneBandwidthContentType : Desc
  zoneBandwidthCountry : Desc
  zoneBandwidthHTTPStatus : Desc
deriving DecidableEq, Repr

/-- The constructor `newCloudflareCollector()`. -/
def newCloudflareCollector : CloudflareCollector :=
  { zoneRequestTotal := NewDesc "cloudflare_zone_requests_total"
      "Number of requests for zone" ["zone"] []
    zoneRequestCached := NewDesc "cloudflare_zone_requests_cached"
      "Number of cached requests for zone" ["zone"] []
    zoneRequestUncached := NewDesc "cloudflare_zone_requests_uncached"
      "Number of uncached requests for zone" ["zone"] []
    zoneRequestSSLEncrypted := NewDesc "cloudflare_zone_requests_ssl_encrypted"
      "Number of encrypted requests for zone" ["zone"] []
    zoneRequestSSLUnencrypted := NewDesc "cloudflare_zone_requests_ssl_unencrypted"
      "Number of unencypted requests for zone" ["zone"] []
    zoneRequestContentType := NewDesc "cloudflare_zone_requests_content_type"
      "Number of request for zone per content type" ["zone", "content_type"] []
    zoneRequestCountry := NewDesc "cloudflare_zone_requests_country"
      "Number of request for zone per country" ["zone", "country"] []
    zoneRequestHTTPStatus := NewDesc "cloudflare_zone_requests_status"
      "Number of request for zone per HTTP status" ["zone", "status"] []
    zoneBandwidthTotal := NewDesc "cloudflare_zone_bandwidth_total"
      "Total bandwidth per zone in bytes" ["zone"] []
    zoneBandwidthCached := NewDesc "cloudflare_zone_bandwidth_cached"
      "Cached bandwidth per zone in bytes" ["zone"] []
    zoneBandwidthUncached := NewDesc "cloudflare_zone_bandwidth_uncached"
      "Uncached bandwidth per zone in bytes" ["zone"] []
    zoneBandwidthSSLEncrypted := NewDesc "cloudflare_zone_bandwidth_ssl_encrypted"
      "Encrypted bandwidth per zone in bytes" ["zone"] []
    zoneBandwidthSSLUnencrypted := NewDesc "cloudflare_zone_bandwidth_ssl_unencrypted"
      "Unencrypted bandwidth per zone in bytes" ["zone"] []
    zoneBandwidthContentType := NewDesc "cloudflare_zone_bandwidth_content_type"
      "Bandwidth per zone per content type" ["zone", "content_type"] []
    zoneBandwidthCountry := NewDesc "cloudflare_zone_bandwidth_country"
      "Bandwidth per country per zone" ["zone", "country"] []
    zoneBandwidthHTTPStatus := NewDesc "cloudflare_zone_bandwidth_status"
      "Bandwidth per country per status" ["zone", "status"] [] }

/-- The method `Describe(ch)`: the channel `ch`, as the list of what was sent on it, after
the sixteen sends of the method, in program order. The method reads the collector and
does not change it. -/
def Describe (collector : CloudflareCollector) (ch : List Desc) : List Desc :=
  ch ++
  [ collector.zoneRequestTotal,
    collector.zoneRequestCached,
    collector.zoneRequestUncached,
    collector.zoneRequestSSLEncrypted,
    collector.zoneRequestSSLUnencrypted,
    collector.zoneRequestContentType,
    collector.zoneRequestCountry,
    collector.zoneRequestHTTPStatus,
    collector.zoneBandwidthTotal,
    collector.zoneBandwidthCached,
    collector.zoneBandwidthUncached,
    collector.zoneBandwidthSSLEncrypted,
    collector.zoneBandwidthSSLUnencrypted,
    collector.zoneBandwidthContentType,
    collector.zoneBandwidthCountry,
    collector.zoneBandwidthHTTPStatus ]

/-! ## The data returned by the stats source -/

/-- Modelled from the spec: the zone record returned by `fetchZones` (its type is
declared outside `collector.go`), `{ id: string, name: string }`. -/
structure Zone where
  ID : String
  Name : String
deriving DecidableEq, Repr

/-- A Go `map[string]T` of counters, as one `range` loop sees it: the entries in the
order in which the loop visits them, and the fact that no key occurs twice. Go leaves
the order of a `range` over a map open; every order is a value of this type. -/
structure GoMap where
  entries : List (String × Nat)
  nodup : (entries.map Prod.fst).Nodup

/-- Modelled from the spec: the TLS split of a totals group,
`ssl: {encrypted: u64, unencrypted: u64}`. -/
structure SSLTotals where
  Encrypted : Nat
  Unencrypted : Nat

/-- Modelled from the spec: one group of a totals snapshot (requests or bandwidth),
`{ all, cached, uncached, ssl, contentType, country, httpStatus }`; the type is
declared outside `collector.go`. -/
structure GroupTotals where
  All : Nat
  Cached : Nat
  Uncached : Nat
  SSL : SSLTotals
  ContentType : GoMap
  Country : GoMap
  HTTPStatus : GoMap

/-- Modelled from the spec: the totals snapshot returned by `fetchZoneTotals`, with
the two groups `Requests` and `Bandwidth`. -/
structure ZoneTotals where
  Requests : GroupTotals
  Bandwidth : GroupTotals

/-- What `Collect` uses and `collector.go` does not define: the conversion `float64(n)`
into the float type `F`, the zone list that the call `fetchZones()` returns and the
totals that the call `fetchZoneTotals(ID)` returns. -/
structure World (F : Type) where
  float64 : Nat → F
  fetchZones : List Zone
  fetchZoneTotals : String → ZoneTotals

/-! ## The goroutine started for one zone -/

/-- The sends of the goroutine `func(ID string, name string)` of `Collect` after
`zt := fetchZoneTotals(ID)`, in program order. Every send evaluates a
`MustNewConstMetric` call first; an entry `none` is a call that panics. -/
def zoneUnit {F : Type} (w : World F) (collector : CloudflareCollector) (zt : ZoneTotals)
    (name : String) : List (Option (Metric F)) :=
  [ MustNewConstMetric collector.zoneRequestTotal ValueType.CounterValue
      (w.float64 zt.Requests.All) [name],
    MustNewConstMetric collector.zoneRequestCached ValueType.CounterValue
      (w.float64 zt.Requests.Cached) [name],
    MustNewConstMetric collector.zoneRequestUncached ValueType.CounterValue
      (w.float64 zt.Requests.Uncached) [name],
    MustNewConstMetric collector.zoneRequestSSLEncrypted ValueType.CounterValue
      (w.float64 zt.Requests.SSL.Encrypted) [name],
    MustNewConstMetric collector.zoneRequestSSLUnencrypted ValueType.CounterValue
      (w.float64 zt.Requests.SSL.Unencrypted) [name] ]
  ++ zt.Requests.ContentType.entries.map (fun e =>
      MustNewConstMetric collector.zoneRequestContentType ValueType.CounterValue
        (w.float64 e.2) [name, e.1])
  ++ zt.Requests.Country.entries.map (fun e =>
      MustNewConstMetric collector.zoneRequestCountry ValueType.CounterValue
        (w.float64 e.2) [name, e.1])
  ++ zt.Requests.HTTPStatus.entries.map (fun e =>
      MustNewConstMetric collector.zoneRequestHTTPStatus ValueType.CounterValue
        (w.float64 e.2) [name, e.1])
  ++ [ MustNewConstMetric collector.zoneBandwidthTotal ValueType.CounterValue
      (w.float64 zt.Bandwidth.All) [name],
    MustNewConstMetric collector.zoneBandwidthCached ValueType.CounterValue
      (w.float64 zt.Bandwidth.Cached) [name],
    MustNewConstMetric collector.zoneBandwidthUncached ValueType.CounterValue
      (w.float64 zt.Bandwidth.Uncached) [name],
    MustNewConstMetric collector.zoneBandwidthSSLEncrypted ValueType.CounterValue
      (w.float64 zt.Bandwidth.SSL.Encrypted) [name],
    MustNewConstMetric collector.zoneBandwidthSSLUnencrypted ValueType.CounterValue
      (w.float64 zt.Bandwidth.SSL.Unencrypted) [name] ]

/-! ## `Collect` as a step relation -/

/-- Where the main routine of `Collect` stands: at the head of the `range zones` loop
with the zones still to visit (with none left it stands at `wg.Wait()`), between
`wg.Add(1)` and the `go` statement of one iteration, or behind `wg.Wait()`. -/
inductive Main where
  | loop (todo : List Zone)
  | spawning (z : Zone) (rest : List Zone)
  | returned
deriving DecidableEq, Repr

/-- Where one goroutine stands: started with its arguments and before the fetch,
sending with the sends still to do, or past its deferred `wg.Done()`. -/
inductive Goroutine (F : Type) where
  | start (ID name : String)
  | sending (pending : List (Option (Metric F)))
  | finished
deriving DecidableEq, Repr

/-- A state of one call of `Collect`: the main routine, the counter of the wait group,
the goroutines in the order of their start, the log of the sends on `ch` (each with the
index of the goroutine that sent it), the arguments of the `fetchZoneTotals` calls made
so far and whether a panic has been raised. -/
structure State (F : Type) where
  main : Main
  wg : Nat
  gs : List (Goroutine F)
  sent : List (Nat × Metric F)
  fetched : List String
  panicked : Bool
deriving DecidableEq, Repr

/-- The metrics received on the channel `ch`, in the order of their arrival. -/
def State.ch {F : Type} (s : State F) : List (Metric F) :=
  s.sent.map Prod.snd

/-- The metrics that goroutine `i` has sent so far, in order. -/
def State.sentBy {F : Type} (s : State F) (i : Nat) : List (Metric F) :=
  (s.sent.filter (fun e => e.1 == i)).map Prod.snd

/-- The state in which `Collect` starts its loop: `zones := fetchZones()` has returned,
the wait group is fresh and nothing has been sent. -/
def init {F : Type} (w : World F) : State F :=
  { main := Main.loop w.fetchZones, wg := 0, gs := [], sent := [], fetched := [],
    panicked := false }

/-- The atomic steps of the routines of `Collect`: `wg.Add(1)`, the `go` statement and
`wg.Wait()` of the main routine; the fetch, one send, and the return with the deferred
`wg.Done()` of goroutine `i`. -/
inductive Action where
  | add
  | go
  | wait
  | fetch (i : Nat)
  | send (i : Nat)
  | done (i : Nat)
deriving DecidableEq, Repr

/-- One step of `Collect`; `none` when the routine cannot take that step in this
state. A panic ends the process: no step follows it. `wg.Wait()` returns only when the
counter is zero, and `wg.Done()` on a zero counter panics. -/
def step {F : Type} (w : World F) (collector : CloudflareCollector) (s : State F) :
    Action → Option (State F)
  | Action.add =>
    if s.panicked then none else
    match s.main with
    | Main.loop (z :: rest) => some { s with main := Main.spawning z rest, wg := s.wg + 1 }
    | _ => none
  | Action.go =>
    if s.panicked then none else
    match s.main with
    | Main.spawning z rest =>
      some { s with main := Main.loop rest, gs := s.gs ++ [Goroutine.start z.ID z.Name] }
    | _ => none
  | Action.wait =>
    if s.panicked then none else
    match s.main with
    | Main.loop [] => if s.wg = 0 then some { s with main := Main.returned } else none
    | _ => none
  | Action.fetch i =>
    if s.panicked then none else
    match s.gs[i]? with
    | some (Goroutine.start ID name) =>
      some { s with
        gs := s.gs.set i (Goroutine.sending (zoneUnit w collector (w.fetchZoneTotals ID) name)),
        fetched := s.fetched ++ [ID] }
    | _ => none
  | Action.send i =>
    if s.panicked then none else
    match s.gs[i]? with
    | some (Goroutine.sending (some m :: rest)) =>
      some { s with gs := s.gs.set i (Goroutine.sending rest), sent := s.sent ++ [(i, m)] }
    | some (Goroutine.sending (none :: _)) => some { s with panicked := true }
    | _ => none
  | Action.done i =>
    if s.panicked then none else
    match s.gs[i]? with
    | some (Goroutine.sending []) =>
      if s.wg = 0 then some { s with panicked := true }
      else some { s with gs := s.gs.set i Goroutine.finished, wg := s.wg - 1 }
    | _ => none

/-- Runs a schedule, a list of steps, from a state; `none` when one of the steps cannot
be taken. -/
def run {F : Type} (w : World F) (collector : CloudflareCollector) :
    State F → List Action → Option (State F)
  | s, [] => some s
  | s, a :: rest => (step w collector s a).bind (fun t => run w collector t rest)

/-- The schedule that runs the goroutines one after the other: every zone is added and
started, then each goroutine fetches, sends all it has and returns, then the main
routine passes `wg.Wait()`. -/
def seqSchedule {F : Type} (w : World F) (collector : CloudflareCollector) : List Action :=
  (w.fetchZones.map (fun _ => [Action.add, Action.go])).flatten
  ++ (w.fetchZones.enum.map (fun iz =>
        [Action.fetch iz.1]
        ++ List.replicate
            (zoneUnit w collector (w.fetchZoneTotals iz.2.ID) iz.2.Name).length
            (Action.send iz.1)
        ++ [Action.done iz.1])).flatten
  ++ [Action.wait]

/-! ## Sample data -/

/-- The zone list of the end-to-end scenario: the one zone `z1`, `example.com`. -/
def exampleZones : List Zone := [{ ID := "z1", Name := "example.com" }]

/-- A map with the one entry `key ↦ value`. -/
def GoMap.single (key : String) (value : Nat) : GoMap :=
  { entries := [(key, value)], nodup := by simp }

/-- The request group of the end-to-end scenario. -/
def exampleRequests : GroupTotals :=
  { All := 100, Cached := 60, Uncached := 40, SSL := { Encrypted := 90, Unencrypted := 10 },
    ContentType := GoMap.single "text/html" 100,
    Country := GoMap.single "US" 100,
    HTTPStatus := GoMap.single "200" 100 }

/-- A bandwidth group for the end-to-end scenario, one entry in each breakdown. -/
def exampleBandwidth : GroupTotals :=
  { All := 5000, Cached := 3000, Uncached := 2000,
    SSL := { Encrypted := 4500, Unencrypted := 500 },
    ContentType := GoMap.single "text/html" 5000,
    Country := GoMap.single "US" 5000,
    HTTPStatus := GoMap.single "200" 5000 }

/-- The world of the end-to-end scenario; the conversion to float is exact on the
values that occur in it. -/
def exampleWorld : World Nat :=
  { float64 := fun n => n,
    fetchZones := exampleZones,
    fetchZoneTotals := fun _ => { Requests := exampleRequests, Bandwidth := exampleBandwidth } }

/-- The map `{"text/html": 10, "image/png": 3}`, visited in this order. -/
def twoContentTypes : GoMap :=
  { entries := [("text/html", 10), ("image/png", 3)], nodup := by decide }

/-! ## What is compared: samples and the samples of a unit -/

/-- The catalog: what `Describe` sends on a fresh channel. -/
def catalog : List Desc :=
  Describe newCloudflareCollector []

/-- The sixteen descriptors of the catalog, written out. -/
def catalogLiteral : List Desc :=
  [ NewDesc "cloudflare_zone_requests_total" "Number of requests for zone" ["zone"] [],
    NewDesc "cloudflare_zone_requests_cached" "Number of cached requests for zone"
      ["zone"] [],
    NewDesc "cloudflare_zone_requests_uncached" "Number of uncached requests for zone"
      ["zone"] [],
    NewDesc "cloudflare_zone_requests_ssl_encrypted" "Number of encrypted requests for zone"
      ["zone"] [],
    NewDesc "cloudflare_zone_requests_ssl_unencrypted"
      "Number of unencypted requests for zone" ["zone"] [],
    NewDesc "cloudflare_zone_requests_content_type"
      "Number of request for zone per content type" ["zone", "content_type"] [],
    NewDesc "cloudflare_zone_requests_country" "Number of request for zone per country"
      ["zone", "country"] [],
    NewDesc "cloudflare_zone_requests_status" "Number of request for zone per HTTP status"
      ["zone", "status"] [],
    NewDesc "cloudflare_zone_bandwidth_total" "Total bandwidth per zone in bytes"
      ["zone"] [],
    NewDesc "cloudflare_zone_bandwidth_cached" "Cached bandwidth per zone in bytes"
      ["zone"] [],
    NewDesc "cloudflare_zone_bandwidth_uncached" "Uncached bandwidth per zone in bytes"
      ["zone"] [],
    NewDesc "cloudflare_zone_bandwidth_ssl_encrypted" "Encrypted bandwidth per zone in bytes"
      ["zone"] [],
    NewDesc "cloudflare_zone_bandwidth_ssl_unencrypted"
      "Unencrypted bandwidth per zone in bytes" ["zone"] [],
    NewDesc "cloudflare_zone_bandwidth_content_type" "Bandwidth per zone per content type"
      ["zone", "content_type"] [],
    NewDesc "cloudflare_zone_bandwidth_country" "Bandwidth per country per zone"
      ["zone", "country"] [],
    NewDesc "cloudflare_zone_bandwidth_status" "Bandwidth per country per status"
      ["zone", "status"] [] ]

/-- A metric as the sample `(series name, value, label values)`. -/
def Metric.sample {F : Type} (m : Metric F) : String × F × List String :=
  (m.desc.fqName, m.val, m.labelValues)

/-- The metrics a goroutine sends for its zone when none of its
`MustNewConstMetric` calls panics. -/
def zoneSamples {F : Type} (w : World F) (collector : CloudflareCollector) (zt : ZoneTotals)
    (name : String) : List (Metric F) :=
  (zoneUnit w collector zt name).filterMap id

/-- The samples of `zoneSamples` that carry the descriptor `d`, each as
`(label values, value)`. -/
def samplesUnder {F : Type} (d : Desc) (ms : List (Metric F)) : List (List String × F) :=
  (ms.filter (fun m => m.desc = d)).map (fun m => (m.labelValues, m.val))

/-! ## Measures and the invariant of `Collect` -/

/-- The sends of the goroutine that `Collect` starts for the zone `z`: it is called as
`func(z.ID, z.Name)` and fetches the totals of `z.ID`. -/
def unitOf {F : Type} (w : World F) (z : Zone) : List (Option (Metric F)) :=
  zoneUnit w newCloudflareCollector (w.fetchZoneTotals z.ID) z.Name

/-- One for a goroutine that has not yet run its `wg.Done()`, zero afterwards. -/
def Goroutine.active {F : Type} : Goroutine F → Nat
  | Goroutine.finished => 0
  | _ => 1

/-- One for a goroutine that has called `fetchZoneTotals`, zero before. -/
def Goroutine.fetches {F : Type} : Goroutine F → Nat
  | Goroutine.start _ _ => 0
  | _ => 1

/-- The number of sends a goroutine still has to do. -/
def Goroutine.pendingLen {F : Type} (w : World F) : Goroutine F → Nat
  | Goroutine.start ID name =>
    (zoneUnit w newCloudflareCollector (w.fetchZoneTotals ID) name).length
  | Goroutine.sending pending => pending.length
  | Goroutine.finished => 0

/-- The number of steps a goroutine can still take. -/
def Goroutine.stepsLeft {F : Type} (w : World F) : Goroutine F → Nat
  | Goroutine.start ID name =>
    (zoneUnit w newCloudflareCollector (w.fetchZoneTotals ID) name).length + 2
  | Goroutine.sending pending => pending.length + 1
  | Goroutine.finished => 0

/-- The zones for which the main routine has not yet started a goroutine. -/
def Main.zones : Main → List Zone
  | Main.loop todo => todo
  | Main.spawning z rest => z :: rest
  | Main.returned => []

/-- One when the main routine stands between `wg.Add(1)` and the `go` statement. -/
def Main.adding : Main → Nat
  | Main.spawning _ _ => 1
  | _ => 0

/-- The number of steps the main routine and the goroutines it has yet to start can
still take: two steps of the main routine and the steps of the goroutine for every
zone to come, and the step through `wg.Wait()`. -/
def Main.stepsLeft {F : Type} (w : World F) : Main → Nat
  | Main.loop todo => (todo.map (fun z => (unitOf w z).length + 4)).sum + 1
  | Main.spawning z rest =>
    (unitOf w z).length + 3 + (rest.map (fun z => (unitOf w z).length + 4)).sum + 1
  | Main.returned => 0

/-- The number of steps `Collect` can still take from a state. -/
def State.stepsLeft {F : Type} (w : World F) (s : State F) : Nat :=
  if s.panicked then 0 else s.main.stepsLeft w + (s.gs.map (Goroutine.stepsLeft w)).sum

/-- What goroutine `i`, started for zone `z`, has sent so far (`sentI`) against where
it stands: nothing before the fetch, and afterwards what it sent followed by what it
still has to send is the send sequence of its zone. -/
def Goroutine.tracks {F : Type} (w : World F) (z : Zone) (sentI : List (Metric F)) :
    Goroutine F → Prop
  | Goroutine.start ID name => ID = z.ID ∧ name = z.Name ∧ sentI = []
  | Goroutine.sending pending => sentI.map some ++ pending = unitOf w z
  | Goroutine.finished => sentI.map some = unitOf w z

/-- The invariant of `Collect` with the catalog of `newCloudflareCollector`. -/
structure Inv {F : Type} (w : World F) (s : State F) : Prop where
  notPanicked : s.panicked = false
  wgCount : s.wg = (s.gs.map Goroutine.active).sum + s.main.adding
  returnedIdle : s.main = Main.returned → s.wg = 0
  position : ∃ pre, w.fetchZones = pre ++ s.main.zones ∧ pre.length = s.gs.length
  units : ∀ (i : Nat) (g : Goroutine F), s.gs[i]? = some g →
    ∃ z, w.fetchZones[i]? = some z ∧ g.tracks w z (s.sentBy i)
  fresh : ∀ i, s.gs.length ≤ i → s.sentBy i = []
  count : s.sent.length + (s.gs.map (Goroutine.pendingLen w)).sum
      + (s.main.zones.map (fun z => (unitOf w z).length)).sum
    = (w.fetchZones.map (fun z => (unitOf w z).length)).sum
  fetchCount : s.fetched.length = (s.gs.map Goroutine.fetches).sum

/-! ## Concrete runs -/

/-- The state in which the sequential schedule leaves the end-to-end scenario. -/
def exampleFinal : State Nat :=
  (run exampleWorld newCloudflareCollector (init exampleWorld)
    (seqSchedule exampleWorld newCloudflareCollector)).getD (init exampleWorld)

/-- Two zones: `example.com` with the two content types of `twoContentTypes` and
otherwise empty breakdowns, and `example.org` with empty breakdowns. -/
def twoZoneWorld : World Nat :=
  { float64 := fun n => n,
    fetchZones := [{ ID := "z1", Name := "example.com" }, { ID := "z2", Name := "example.org" }],
    fetchZoneTotals := fun ID =>
      if ID = "z1" then
        { Requests :=
            { All := 13, Cached := 8, Uncached := 5, SSL := { Encrypted := 13, Unencrypted := 0 },
              ContentType := twoContentTypes,
              Country := { entries := [], nodup := List.nodup_nil },
              HTTPStatus := { entries := [], nodup := List.nodup_nil } },
          Bandwidth := exampleBandwidth }
      else
        { Requests :=
            { All := 7, Cached := 0, Uncached := 7, SSL := { Encrypted := 0, Unencrypted := 7 },
              ContentType := { entries := [], nodup := List.nodup_nil },
              Country := { entries := [], nodup := List.nodup_nil },
              HTTPStatus := { entries := [], nodup := List.nodup_nil } },
          Bandwidth :=
            { All := 70, Cached := 0, Uncached := 70,
              SSL := { Encrypted := 0, Unencrypted := 70 },
              ContentType := { entries := [], nodup := List.nodup_nil },
              Country := { entries := [], nodup := List.nodup_nil },
              HTTPStatus := { entries := [], nodup := List.nodup_nil } } } }

/-- A schedule for `twoZoneWorld` in which the two goroutines take turns: the first
goroutine fetches and sends before the second is started, then both send alternately,
and the second returns before the first. -/
def interleavedSchedule : List Action :=
  [Action.add, Action.go, Action.fetch 0, Action.send 0, Action.add, Action.go, Action.fetch 1]
  ++ (List.replicate 10 [Action.send 1, Action.send 0]).flatten
  ++ [Action.done 1, Action.send 0, Action.done 0, Action.wait]

/-- The state in which `interleavedSchedule` leaves `twoZoneWorld`. -/
def twoZoneFinal : State Nat :=
  (run twoZoneWorld newCloudflareCollector (init twoZoneWorld) interleavedSchedule).getD
    (init twoZoneWorld)

/-- The state of `twoZoneWorld` after the first eleven steps of `interleavedSchedule`:
both goroutines are sending and `Collect` stands at `wg.Wait()`. -/
def twoZoneMiddle : State Nat :=
  (run twoZoneWorld newCloudflareCollector (init twoZoneWorld)
    (interleavedSchedule.take 11)).getD (init twoZoneWorld)

/-- A world without zones. -/
def emptyWorld : World Nat :=
  { float64 := fun n => n, fetchZones := [], fetchZoneTotals := exampleWorld.fetchZoneTotals }

/-! ## The goroutine of one zone -/

section Unit

variable {F : Type}

/-- With the catalog of `newCloudflareCollector` every `MustNewConstMetric` call of
the goroutine passes the arity check. -/
theorem zoneUnit_isSome (w : World F) (zt : ZoneTotals) (name : String) :
    ∀ x ∈ zoneUnit w newCloudflareCollector zt name, x.isSome = true := by
  intro x hx
  simp only [zoneUnit, newCloudflareCollector, NewDesc, MustNewConstMetric, List.mem_append,
    List.mem_map, List.mem_cons, List.length_cons, List.length_nil, List.mem_singleton,
    if_true, List.not_mem_nil, or_false] at hx
  rcases hx with ((((h | h | h | h | h) | ⟨e, -, h⟩) | ⟨e, -, h⟩) | ⟨e, -, h⟩)
    | h | h | h | h | h
  all_goals subst h; rfl

/-- The sends of a goroutine are its samples, none of them a panic. -/
theorem zoneUnit_eq_map_some (w : World F) (zt : ZoneTotals) (name : String) :
    zoneUnit w newCloudflareCollector zt name
      = (zoneSamples w newCloudflareCollector zt name).map some := by
  have h := zoneUnit_isSome w zt name
  unfold zoneSamples
  generalize zoneUnit w newCloudflareCollector zt name = l at h
  induction l with
  | nil => rfl
  | cons x xs ih =>
    have hx := h x (List.mem_cons_self _ _)
    cases x with
    | none => simp at hx
    | some m =>
      have ih' := ih (fun y hy => h y (List.mem_cons_of_mem _ hy))
      simp only [List.filterMap_cons_some (rfl : id (some m) = some m), List.map_cons]
      exact congrArg _ ih'

/-- The samples of a goroutine, written out. -/
theorem zoneSamples_eq (w : World F) (zt : ZoneTotals) (name : String) :
    zoneSamples w newCloudflareCollector zt name =
      [ Metric.mk newCloudflareCollector.zoneRequestTotal ValueType.CounterValue
          (w.float64 zt.Requests.All) [name],
        Metric.mk newCloudflareCollector.zoneRequestCached ValueType.CounterValue
          (w.float64 zt.Requests.Cached) [name],
        Metric.mk newCloudflareCollector.zoneRequestUncached ValueType.CounterValue
          (w.float64 zt.Requests.Uncached) [name],
        Metric.mk newCloudflareCollector.zoneRequestSSLEncrypted ValueType.CounterValue
          (w.float64 zt.Requests.SSL.Encrypted) [name],
        Metric.mk newCloudflareCollector.zoneRequestSSLUnencrypted ValueType.CounterValue
          (w.float64 zt.Requests.SSL.Unencrypted) [name] ]
      ++ zt.Requests.ContentType.entries.map (fun e =>
          Metric.mk newCloudflareCollector.zoneRequestContentType ValueType.CounterValue
            (w.float64 e.2) [name, e.1])
      ++ zt.Requests.Country.entries.map (fun e =>
          Metric.mk newCloudflareCollector.zoneRequestCountry ValueType.CounterValue
            (w.float64 e.2) [name, e.1])
      ++ zt.Requests.HTTPStatus.entries.map (fun e =>
          Metric.mk newCloudflareCollector.zoneRequestHTTPStatus ValueType.CounterValue
            (w.float64 e.2) [name, e.1])
      ++ [ Metric.mk newCloudflareCollector.zoneBandwidthTotal ValueType.CounterValue
          (w.float64 zt.Bandwidth.All) [name],
        Metric.mk newCloudflareCollector.zoneBandwidthCached ValueType.CounterValue
          (w.float64 zt.Bandwidth.Cached) [name],
        Metric.mk newCloudflareCollector.zoneBandwidthUncached ValueType.CounterValue
          (w.float64 zt.Bandwidth.Uncached) [name],
        Metric.mk newCloudflareCollector.zoneBandwidthSSLEncrypted ValueType.CounterValue
          (w.float64 zt.Bandwidth.SSL.Encrypted) [name],
        Metric.mk newCloudflareCollector.zoneBandwidthSSLUnencrypted ValueType.CounterValue
          (w.float64 zt.Bandwidth.SSL.Unencrypted) [name] ] := by
  apply List.map_injective_iff.mpr (Option.some_injective _)
  rw [← zoneUnit_eq_map_some]
  simp [zoneUnit, newCloudflareCollector, NewDesc, MustNewConstMetric, Function.comp_def]

/-- The number of sends of a goroutine: ten scalar samples and one sample per entry of
the three request breakdowns. -/
theorem zoneUnit_length (w : World F) (zt : ZoneTotals) (name : String) :
    (zoneUnit w newCloudflareCollector zt name).length
      = 10 + zt.Requests.ContentType.entries.length + zt.Requests.Country.entries.length
          + zt.Requests.HTTPStatus.entries.length := by
  simp only [zoneUnit, List.length_append, List.length_map, List.length_cons, List.length_nil]
  omega

end Unit

/-! ## Steps of `Collect` -/

section Steps

variable {F : Type}

/-- Replacing one element of a list changes a sum over the list by the difference of
the two summands. -/
theorem sum_map_set {α : Type} (f : α → Nat) (l : List α) (i : Nat) (g g' : α)
    (h : l[i]? = some g) :
    ((l.set i g').map f).sum + f g = (l.map f).sum + f g' := by
  induction l generalizing i with
  | nil => simp at h
  | cons x xs ih =>
    cases i with
    | zero =>
      simp only [List.getElem?_cons_zero, Option.some.injEq] at h
      subst h
      simp only [List.set_cons_zero, List.map_cons, List.sum_cons]
      omega
    | succ n =>
      simp only [List.getElem?_cons_succ] at h
      have := ih n h
      simp only [List.set_cons_succ, List.map_cons, List.sum_cons]
      omega

theorem step_add {w : World F} {c : CloudflareCollector} {s t : State F}
    (h : step w c s Action.add = some t) :
    s.panicked = false ∧ ∃ z rest, s.main = Main.loop (z :: rest)
      ∧ t = { s with main := Main.spawning z rest, wg := s.wg + 1 } := by
  simp only [step] at h
  split at h
  · cases h
  · rename_i hp
    split at h
    · rename_i z rest hm
      exact ⟨by simpa using hp, z, rest, hm, by simpa using h.symm⟩
    · cases h

theorem step_go {w : World F} {c : CloudflareCollector} {s t : State F}
    (h : step w c s Action.go = some t) :
    s.panicked = false ∧ ∃ z rest, s.main = Main.spawning z rest
      ∧ t = { s with main := Main.loop rest, gs := s.gs ++ [Goroutine.start z.ID z.Name] } := by
  simp only [step] at h
  split at h
  · cases h
  · rename_i hp
    split at h
    · rename_i z rest hm
      exact ⟨by simpa using hp, z, rest, hm, by simpa using h.symm⟩
    · cases h

theorem step_wait {w : World F} {c : CloudflareCollector} {s t : State F}
    (h : step w c s Action.wait = some t) :
    s.panicked = false ∧ s.main = Main.loop [] ∧ s.wg = 0
      ∧ t = { s with main := Main.returned } := by
  simp only [step] at h
  split at h
  · cases h
  · rename_i hp
    split at h
    · rename_i hm
      split at h
      · rename_i hw
        exact ⟨by simpa using hp, hm, hw, by simpa using h.symm⟩
      · cases h
    · cases h

theorem step_fetch {w : World F} {c : CloudflareCollector} {s t : State F} {i : Nat}
    (h : step w c s (Action.fetch i) = some t) :
    s.panicked = false ∧ ∃ ID name, s.gs[i]? = some (Goroutine.start ID name)
      ∧ t = { s with
          gs := s.gs.set i (Goroutine.sending (zoneUnit w c (w.fetchZoneTotals ID) name)),
          fetched := s.fetched ++ [ID] } := by
  simp only [step] at h
  split at h
  · cases h
  · rename_i hp
    split at h
    · rename_i ID name hg
      exact ⟨by simpa using hp, ID, name, hg, by simpa using h.symm⟩
    · cases h

theorem step_send {w : World F} {c : CloudflareCollector} {s t : State F} {i : Nat}
    (h : step w c s (Action.send i) = some t) :
    s.panicked = false ∧
      ((∃ m rest, s.gs[i]? = some (Goroutine.sending (some m :: rest))
          ∧ t = { s with gs := s.gs.set i (Goroutine.sending rest),
                         sent := s.sent ++ [(i, m)] })
        ∨ (∃ rest, s.gs[i]? = some (Goroutine.sending (none :: rest))
          ∧ t = { s with panicked := true })) := by
  simp only [step] at h
  split at h
  · cases h
  · rename_i hp
    split at h
    · rename_i m rest hg
      exact ⟨by simpa using hp, Or.inl ⟨m, rest, hg, by simpa using h.symm⟩⟩
    · rename_i rest hg
      exact ⟨by simpa using hp, Or.inr ⟨rest, hg, by simpa using h.symm⟩⟩
    · cases h

theorem step_done {w : World F} {c : CloudflareCollector} {s t : State F} {i : Nat}
    (h : step w c s (Action.done i) = some t) :
    s.panicked = false ∧ s.gs[i]? = some (Goroutine.sending []) ∧
      ((s.wg = 0 ∧ t = { s with panicked := true })
        ∨ (s.wg ≠ 0
          ∧ t = { s with gs := s.gs.set i Goroutine.finished, wg := s.wg - 1 })) := by
  simp only [step] at h
  split at h
  · cases h
  · rename_i hp
    split at h
    · rename_i hg
      split at h
      · rename_i hw
        exact ⟨by simpa using hp, hg, Or.inl ⟨hw, by simpa using h.symm⟩⟩
      · rename_i hw
        exact ⟨by simpa using hp, hg, Or.inr ⟨hw, by simpa using h.symm⟩⟩
    · cases h

end Steps

/-! ## The invariant holds in every state `Collect` reaches -/

section Invariant

variable {F : Type}

theorem sentBy_snoc (sent : List (Nat × Metric F)) (i j : Nat) (m : Metric F) :
    ((sent ++ [(i, m)]).filter (fun e => e.1 == j)).map Prod.snd
      = if j = i then (sent.filter (fun e => e.1 == j)).map Prod.snd ++ [m]
        else (sent.filter (fun e => e.1 == j)).map Prod.snd := by
  by_cases h : j = i
  · subst h
    simp [List.filter_append]
  · have h' : ¬ i = j := fun e => h e.symm
    simp [List.filter_append, h, h']

theorem Inv_init (w : World F) : Inv w (init w) where
  notPanicked := rfl
  wgCount := rfl
  returnedIdle := fun h => by cases h
  position := ⟨[], rfl, rfl⟩
  units := fun i g h => by simp [init] at h
  fresh := fun _ _ => rfl
  count := by simp [init, Main.zones]
  fetchCount := rfl

theorem Inv_add {w : World F} {s t : State F} (inv : Inv w s)
    (h : step w newCloudflareCollector s Action.add = some t) : Inv w t := by
  obtain ⟨-, z, rest, hm, rfl⟩ := step_add h
  exact
    { notPanicked := inv.notPanicked
      wgCount := by
        have := inv.wgCount
        simp only [hm, Main.adding] at this ⊢
        omega
      returnedIdle := fun h => by cases h
      position := by simpa [hm, Main.zones] using inv.position
      units := inv.units
      fresh := inv.fresh
      count := by simpa [hm, Main.zones] using inv.count
      fetchCount := inv.fetchCount }

theorem Inv_go {w : World F} {s t : State F} (inv : Inv w s)
    (h : step w newCloudflareCollector s Action.go = some t) : Inv w t := by
  obtain ⟨-, z, rest, hm, rfl⟩ := step_go h
  obtain ⟨pre, hpre, hlen⟩ := inv.position
  simp only [hm, Main.zones] at hpre
  exact
    { notPanicked := inv.notPanicked
      wgCount := by
        have := inv.wgCount
        simp only [hm, Main.adding] at this
        simp only [Main.adding, List.map_append, List.sum_append, List.map_cons, List.map_nil,
          List.sum_cons, List.sum_nil, Goroutine.active]
        omega
      returnedIdle := fun h => by cases h
      position := ⟨pre ++ [z], by simp [Main.zones, hpre], by simp [hlen]⟩
      units := by
        intro i g hg
        by_cases hi : i < s.gs.length
        · rw [List.getElem?_append_left hi] at hg
          exact inv.units i g hg
        · have hi' : s.gs.length ≤ i := Nat.le_of_not_lt hi
          rw [List.getElem?_append_right hi'] at hg
          have hi0 : i - s.gs.length = 0 := by
            by_contra hne
            have : ([Goroutine.start z.ID z.Name] : List (Goroutine F))[i - s.gs.length]? = none :=
              List.getElem?_eq_none (by simp; omega)
            rw [this] at hg
            cases hg
          have hieq : i = s.gs.length := by omega
          rw [hi0] at hg
          simp only [List.getElem?_cons_zero, Option.some.injEq] at hg
          subst hg
          refine ⟨z, ?_, rfl, rfl, inv.fresh i hi'⟩
          rw [hpre, hieq, ← hlen, List.getElem?_append_right (Nat.le_refl _)]
          simp
      fresh := by
        intro i hi
        apply inv.fresh
        simp only [List.length_append, List.length_cons, List.length_nil] at hi
        omega
      count := by
        have := inv.count
        simp only [hm, Main.zones, List.map_cons, List.sum_cons] at this
        simp only [Main.zones, List.map_append, List.sum_append, List.map_cons, List.map_nil,
          List.sum_cons, List.sum_nil, Goroutine.pendingLen]
        simp only [unitOf] at this ⊢
        omega
      fetchCount := by
        have := inv.fetchCount
        simp only [List.map_append, List.sum_append, List.map_cons, List.map_nil,
          List.sum_cons, List.sum_nil, Goroutine.fetches]
        omega }

theorem Inv_wait {w : World F} {s t : State F} (inv : Inv w s)
    (h : step w newCloudflareCollector s Action.wait = some t) : Inv w t := by
  obtain ⟨-, hm, hw, rfl⟩ := step_wait h
  exact
    { notPanicked := inv.notPanicked
      wgCount := by
        have := inv.wgCount
        simp only [hm, Main.adding] at this
        simpa [Main.adding] using this
      returnedIdle := fun _ => hw
      position := by simpa [hm, Main.zones] using inv.position
      units := inv.units
      fresh := inv.fresh
      count := by simpa [hm, Main.zones] using inv.count
      fetchCount := inv.fetchCount }

/-- The goroutines other than `i` keep their place when goroutine `i` is replaced. -/
theorem units_set {w : World F} {gs : List (Goroutine F)}
    {sentBy' : Nat → List (Metric F)} (sentBy : Nat → List (Metric F))
    (hu : ∀ (j : Nat) (g : Goroutine F), gs[j]? = some g →
      ∃ z, w.fetchZones[j]? = some z ∧ g.tracks w z (sentBy j))
    (i : Nat) (g' : Goroutine F)
    (hother : ∀ j, j ≠ i → sentBy' j = sentBy j)
    (hi : ∀ g z, gs[i]? = some g → w.fetchZones[i]? = some z → g.tracks w z (sentBy i) →
      g'.tracks w z (sentBy' i)) :
    ∀ (j : Nat) (g : Goroutine F), (gs.set i g')[j]? = some g →
      ∃ z, w.fetchZones[j]? = some z ∧ g.tracks w z (sentBy' j) := by
  intro j g hg
  rw [List.getElem?_set] at hg
  by_cases hij : i = j
  · subst hij
    rw [if_pos rfl] at hg
    split at hg
    · rename_i hlt
      cases hg
      obtain ⟨z, hz, ht⟩ := hu i (gs[i]) (List.getElem?_eq_getElem hlt)
      exact ⟨z, hz, hi _ z (List.getElem?_eq_getElem hlt) hz ht⟩
    · cases hg
  · rw [if_neg hij] at hg
    obtain ⟨z, hz, ht⟩ := hu j g hg
    exact ⟨z, hz, by rw [hother j (fun e => hij e.symm)]; exact ht⟩

theorem Inv_fetch {w : World F} {s t : State F} {i : Nat} (inv : Inv w s)
    (h : step w newCloudflareCollector s (Action.fetch i) = some t) : Inv w t := by
  obtain ⟨-, ID, name, hg, rfl⟩ := step_fetch h
  have hA := sum_map_set Goroutine.active s.gs i (Goroutine.start ID name)
    (Goroutine.sending (zoneUnit w newCloudflareCollector (w.fetchZoneTotals ID) name)) hg
  have hP := sum_map_set (Goroutine.pendingLen w) s.gs i (Goroutine.start ID name)
    (Goroutine.sending (zoneUnit w newCloudflareCollector (w.fetchZoneTotals ID) name)) hg
  have hFe := sum_map_set Goroutine.fetches s.gs i (Goroutine.start ID name)
    (Goroutine.sending (zoneUnit w newCloudflareCollector (w.fetchZoneTotals ID) name)) hg
  simp only [Goroutine.active, Goroutine.pendingLen, Goroutine.fetches] at hA hP hFe
  exact
    { notPanicked := inv.notPanicked
      wgCount := by
        have := inv.wgCount
        dsimp only
        omega
      returnedIdle := inv.returnedIdle
      position := by
        obtain ⟨pre, hpre, hlen⟩ := inv.position
        exact ⟨pre, hpre, by simp [hlen]⟩
      units := by
        refine units_set s.sentBy inv.units i _ (fun _ _ => rfl) ?_
        intro g z hg' _ ht
        rw [hg] at hg'
        cases hg'
        obtain ⟨rfl, rfl, hs⟩ := ht
        show (State.sentBy s i).map some ++ _ = unitOf w z
        rw [hs]
        rfl
      fresh := by
        intro j hj
        apply inv.fresh
        simpa using hj
      count := by
        have := inv.count
        dsimp only
        omega
      fetchCount := by
        have := inv.fetchCount
        dsimp only
        simp only [List.length_append, List.length_cons, List.length_nil]
        omega }

theorem Inv_send {w : World F} {s t : State F} {i : Nat} (inv : Inv w s)
    (h : step w newCloudflareCollector s (Action.send i) = some t) : Inv w t := by
  obtain ⟨-, ⟨m, rest, hg, rfl⟩ | ⟨rest, hg, rfl⟩⟩ := step_send h
  · have hA := sum_map_set Goroutine.active s.gs i (Goroutine.sending (some m :: rest))
      (Goroutine.sending rest) hg
    have hP := sum_map_set (Goroutine.pendingLen w) s.gs i (Goroutine.sending (some m :: rest))
      (Goroutine.sending rest) hg
    have hFe := sum_map_set Goroutine.fetches s.gs i (Goroutine.sending (some m :: rest))
      (Goroutine.sending rest) hg
    simp only [Goroutine.active, Goroutine.pendingLen, Goroutine.fetches,
      List.length_cons] at hA hP hFe
    have hilt : i < s.gs.length := by
      rcases List.getElem?_eq_some_iff.mp hg with ⟨hlt, -⟩
      exact hlt
    have hsb : ∀ j, State.sentBy (State.mk s.main s.wg (s.gs.set i (Goroutine.sending rest))
          (s.sent ++ [(i, m)]) s.fetched s.panicked) j
        = if j = i then s.sentBy j ++ [m] else s.sentBy j :=
      fun j => sentBy_snoc s.sent i j m
    exact
      { notPanicked := inv.notPanicked
        wgCount := by
          have := inv.wgCount
          dsimp only
          omega
        returnedIdle := inv.returnedIdle
        position := by
          obtain ⟨pre, hpre, hlen⟩ := inv.position
          exact ⟨pre, hpre, by simp [hlen]⟩
        units := by
          refine units_set s.sentBy inv.units i _ ?_ ?_
          · intro j hj
            rw [hsb j, if_neg hj]
          · intro g z hg' _ ht
            rw [hg] at hg'
            cases hg'
            rw [hsb i, if_pos rfl]
            show (State.sentBy s i ++ [m]).map some ++ rest = unitOf w z
            rw [← ht]
            simp
        fresh := by
          intro j hj
          have hj' : s.gs.length ≤ j := by simpa using hj
          rw [hsb j, if_neg (by omega)]
          exact inv.fresh j hj'
        count := by
          have := inv.count
          dsimp only
          simp only [List.length_append, List.length_cons, List.length_nil]
          omega
        fetchCount := by
          have := inv.fetchCount
          dsimp only
          omega }
  · exfalso
    obtain ⟨z, -, ht⟩ := inv.units i _ hg
    have hmem : (none : Option (Metric F)) ∈ unitOf w z := by
      rw [← (ht : (State.sentBy s i).map some ++ (none :: rest) = unitOf w z)]
      simp
    have := zoneUnit_isSome w (w.fetchZoneTotals z.ID) z.Name none hmem
    simp at this

theorem Inv_done {w : World F} {s t : State F} {i : Nat} (inv : Inv w s)
    (h : step w newCloudflareCollector s (Action.done i) = some t) : Inv w t := by
  obtain ⟨-, hg, hcase⟩ := step_done h
  have hA := sum_map_set Goroutine.active s.gs i (Goroutine.sending [])
    Goroutine.finished hg
  have hP := sum_map_set (Goroutine.pendingLen w) s.gs i (Goroutine.sending [])
    Goroutine.finished hg
  have hFe := sum_map_set Goroutine.fetches s.gs i (Goroutine.sending [])
    Goroutine.finished hg
  simp only [Goroutine.active, Goroutine.pendingLen, Goroutine.fetches,
    List.length_nil] at hA hP hFe
  have hwg := inv.wgCount
  rcases hcase with ⟨hw, -⟩ | ⟨hw, rfl⟩
  · omega
  · exact
      { notPanicked := inv.notPanicked
        wgCount := by
          dsimp only
          omega
        returnedIdle := fun hr => absurd (inv.returnedIdle hr) hw
        position := by
          obtain ⟨pre, hpre, hlen⟩ := inv.position
          exact ⟨pre, hpre, by simp [hlen]⟩
        units := by
          refine units_set s.sentBy inv.units i _ (fun _ _ => rfl) ?_
          intro g z hg' _ ht
          rw [hg] at hg'
          cases hg'
          show (State.sentBy s i).map some = unitOf w z
          rw [← (ht : (State.sentBy s i).map some ++ [] = unitOf w z)]
          simp
        fresh := by
          intro j hj
          apply inv.fresh
          simpa using hj
        count := by
          have := inv.count
          dsimp only
          omega
        fetchCount := by
          have := inv.fetchCount
          dsimp only
          omega }

/-- Every step of `Collect` keeps the invariant. -/
theorem Inv_step {w : World F} {s t : State F} (a : Action) (inv : Inv w s)
    (h : step w newCloudflareCollector s a = some t) : Inv w t := by
  cases a with
  | add => exact Inv_add inv h
  | go => exact Inv_go inv h
  | wait => exact Inv_wait inv h
  | fetch i => exact Inv_fetch inv h
  | send i => exact Inv_send inv h
  | done i => exact Inv_done inv h

/-- Every schedule keeps the invariant. -/
theorem Inv_run {w : World F} (sched : List Action) {s t : State F} (inv : Inv w s)
    (h : run w newCloudflareCollector s sched = some t) : Inv w t := by
  induction sched generalizing s with
  | nil =>
    simp only [run, Option.some.injEq] at h
    exact h ▸ inv
  | cons a rest ih =>
    simp only [run] at h
    cases hs : step w newCloudflareCollector s a with
    | none => rw [hs] at h; cases h
    | some u =>
      rw [hs] at h
      exact ih (Inv_step a inv hs) h

/-- The invariant holds in every state that `Collect` reaches. -/
theorem Inv_reach {w : World F} {sched : List Action} {s : State F}
    (h : run w newCloudflareCollector (init w) sched = some s) : Inv w s :=
  Inv_run sched (Inv_init w) h

end Invariant

/-! ## What the invariant gives -/

section Consequences

variable {F : Type}

theorem all_finished_of_active_zero (gs : List (Goroutine F))
    (h : (gs.map Goroutine.active).sum = 0) : ∀ g ∈ gs, g = Goroutine.finished := by
  induction gs with
  | nil => intro g hg; cases hg
  | cons x xs ih =>
    simp only [List.map_cons, List.sum_cons] at h
    intro g hg
    rcases List.mem_cons.mp hg with rfl | hg
    · cases g with
      | finished => rfl
      | start ID name => simp [Goroutine.active] at h
      | sending p => simp [Goroutine.active] at h
    · exact ih (by omega) g hg

theorem active_zero_of_all_finished (gs : List (Goroutine F))
    (h : ∀ g ∈ gs, g = Goroutine.finished) : (gs.map Goroutine.active).sum = 0 := by
  induction gs with
  | nil => rfl
  | cons x xs ih =>
    have hx := h x (List.mem_cons_self _ _)
    subst hx
    simp only [List.map_cons, List.sum_cons, Goroutine.active]
    rw [ih (fun g hg => h g (List.mem_cons_of_mem _ hg))]

theorem pending_zero_of_all_finished (w : World F) (gs : List (Goroutine F))
    (h : ∀ g ∈ gs, g = Goroutine.finished) : (gs.map (Goroutine.pendingLen w)).sum = 0 := by
  induction gs with
  | nil => rfl
  | cons x xs ih =>
    have hx := h x (List.mem_cons_self _ _)
    subst hx
    simp only [List.map_cons, List.sum_cons, Goroutine.pendingLen]
    rw [ih (fun g hg => h g (List.mem_cons_of_mem _ hg))]

/-- A metric on the channel was sent by some goroutine. -/
theorem mem_sentBy_of_mem_ch {s : State F} {m : Metric F} (h : m ∈ s.ch) :
    ∃ i, m ∈ s.sentBy i := by
  simp only [State.ch, List.mem_map] at h
  obtain ⟨⟨i, m'⟩, hmem, rfl⟩ := h
  refine ⟨i, ?_⟩
  simp only [State.sentBy, List.mem_map, List.mem_filter]
  exact ⟨(i, m'), ⟨hmem, by simp⟩, rfl⟩

/-- After the return of `Collect` every goroutine is past its `wg.Done()`. -/
theorem Inv.all_finished {w : World F} {s : State F} (inv : Inv w s)
    (hret : s.main = Main.returned) : ∀ g ∈ s.gs, g = Goroutine.finished := by
  apply all_finished_of_active_zero
  have h1 := inv.wgCount
  have h2 := inv.returnedIdle hret
  omega

/-- After the return of `Collect` there is one goroutine for every zone. -/
theorem Inv.length_gs {w : World F} {s : State F} (inv : Inv w s)
    (hret : s.main = Main.returned) : s.gs.length = w.fetchZones.length := by
  obtain ⟨pre, hpre, hlen⟩ := inv.position
  rw [hret] at hpre
  simp only [Main.zones, List.append_nil] at hpre
  rw [hpre, hlen]

/-- After the return of `Collect` the goroutine of every zone has sent exactly the
samples of that zone, in program order. -/
theorem Inv.sentBy_eq {w : World F} {s : State F} (inv : Inv w s)
    (hret : s.main = Main.returned) {i : Nat} {z : Zone} (hz : w.fetchZones[i]? = some z) :
    s.sentBy i = zoneSamples w newCloudflareCollector (w.fetchZoneTotals z.ID) z.Name := by
  have hlt : i < s.gs.length := by
    rw [inv.length_gs hret]
    exact (List.getElem?_eq_some_iff.mp hz).1
  have hg : s.gs[i]? = some (s.gs[i]) := List.getElem?_eq_getElem hlt
  have hfin := inv.all_finished hret (s.gs[i]) (List.getElem_mem _)
  rw [hfin] at hg
  obtain ⟨z', hz', ht⟩ := inv.units i _ hg
  rw [hz] at hz'
  cases hz'
  have ht' : (s.sentBy i).map some = unitOf w z := ht
  rw [unitOf, zoneUnit_eq_map_some] at ht'
  exact List.map_injective_iff.mpr (Option.some_injective _) ht'

/-- Whatever is on the channel is a sample of one of the zones. -/
theorem Inv.mem_ch {w : World F} {s : State F} (inv : Inv w s) {m : Metric F}
    (hm : m ∈ s.ch) :
    ∃ z ∈ w.fetchZones,
      m ∈ zoneSamples w newCloudflareCollector (w.fetchZoneTotals z.ID) z.Name := by
  obtain ⟨i, hi⟩ := mem_sentBy_of_mem_ch hm
  have hlt : i < s.gs.length := by
    by_contra hge
    rw [inv.fresh i (Nat.le_of_not_lt hge)] at hi
    cases hi
  obtain ⟨z, hz, ht⟩ := inv.units i _ (List.getElem?_eq_getElem hlt)
  refine ⟨z, List.getElem?_mem hz, ?_⟩
  have hsome : some m ∈ unitOf w z := by
    cases hgi : s.gs[i] with
    | start ID name =>
      rw [hgi] at ht
      rw [ht.2.2] at hi
      cases hi
    | sending p =>
      rw [hgi] at ht
      rw [← (ht : (s.sentBy i).map some ++ p = unitOf w z)]
      exact List.mem_append_left _ (List.mem_map_of_mem _ hi)
    | finished =>
      rw [hgi] at ht
      rw [← (ht : (s.sentBy i).map some = unitOf w z)]
      exact List.mem_map_of_mem _ hi
  rw [unitOf, zoneUnit_eq_map_some, List.mem_map] at hsome
  obtain ⟨m', hm', heq⟩ := hsome
  cases heq
  exact hm'

/-- After the return of `Collect` the channel holds as many metrics as the goroutines of
all zones send together. -/
theorem Inv.length_ch {w : World F} {s : State F} (inv : Inv w s)
    (hret : s.main = Main.returned) :
    s.ch.length = (w.fetchZones.map (fun z =>
      10 + (w.fetchZoneTotals z.ID).Requests.ContentType.entries.length
        + (w.fetchZoneTotals z.ID).Requests.Country.entries.length
        + (w.fetchZoneTotals z.ID).Requests.HTTPStatus.entries.length)).sum := by
  have hc := inv.count
  rw [pending_zero_of_all_finished w s.gs (inv.all_finished hret), hret] at hc
  simp only [Main.zones, List.map_nil, List.sum_nil, Nat.add_zero] at hc
  simp only [State.ch, List.length_map]
  rw [hc]
  congr 1
  apply List.map_congr_left
  intro z _
  exact zoneUnit_length w _ _

/-- A goroutine in the list contributes to a sum over the list. -/
theorem le_sum_map {α : Type} (f : α → Nat) (l : List α) (i : Nat) (g : α)
    (h : l[i]? = some g) : f g ≤ (l.map f).sum := by
  induction l generalizing i with
  | nil => simp at h
  | cons x xs ih =>
    cases i with
    | zero =>
      simp only [List.getElem?_cons_zero, Option.some.injEq] at h
      subst h
      simp only [List.map_cons, List.sum_cons]
      omega
    | succ n =>
      simp only [List.getElem?_cons_succ] at h
      have := ih n h
      simp only [List.map_cons, List.sum_cons]
      omega

/-- Every step of `Collect` uses up one of the steps that are left. -/
theorem stepsLeft_lt {w : World F} {s t : State F} {a : Action}
    (h : step w newCloudflareCollector s a = some t) : t.stepsLeft w < s.stepsLeft w := by
  cases a with
  | add =>
    obtain ⟨hp, z, rest, hm, rfl⟩ := step_add h
    simp only [State.stepsLeft, hp, hm, Main.stepsLeft, List.map_cons, List.sum_cons,
      Bool.false_eq_true, if_false]
    omega
  | go =>
    obtain ⟨hp, z, rest, hm, rfl⟩ := step_go h
    simp only [State.stepsLeft, hp, hm, Main.stepsLeft, List.map_append, List.sum_append,
      List.map_cons, List.map_nil, List.sum_cons, List.sum_nil, Goroutine.stepsLeft,
      Bool.false_eq_true, if_false, unitOf]
    omega
  | wait =>
    obtain ⟨hp, hm, -, rfl⟩ := step_wait h
    simp [State.stepsLeft, hp, hm, Main.stepsLeft]
  | fetch i =>
    obtain ⟨hp, ID, name, hg, rfl⟩ := step_fetch h
    have hS := sum_map_set (Goroutine.stepsLeft w) s.gs i (Goroutine.start ID name)
      (Goroutine.sending (zoneUnit w newCloudflareCollector (w.fetchZoneTotals ID) name)) hg
    simp only [Goroutine.stepsLeft] at hS
    simp only [State.stepsLeft, hp, Bool.false_eq_true, if_false]
    omega
  | send i =>
    obtain ⟨hp, ⟨m, rest, hg, rfl⟩ | ⟨rest, hg, rfl⟩⟩ := step_send h
    · have hS := sum_map_set (Goroutine.stepsLeft w) s.gs i (Goroutine.sending (some m :: rest))
        (Goroutine.sending rest) hg
      simp only [Goroutine.stepsLeft, List.length_cons] at hS
      simp only [State.stepsLeft, hp, Bool.false_eq_true, if_false]
      omega
    · have hS := le_sum_map (Goroutine.stepsLeft w) s.gs i _ hg
      simp only [Goroutine.stepsLeft, List.length_cons] at hS
      simp only [State.stepsLeft, hp, Bool.false_eq_true, if_false, if_true]
      omega
  | done i =>
    obtain ⟨hp, hg, ⟨-, rfl⟩ | ⟨-, rfl⟩⟩ := step_done h
    · have hS := le_sum_map (Goroutine.stepsLeft w) s.gs i _ hg
      simp only [Goroutine.stepsLeft, List.length_nil] at hS
      simp only [State.stepsLeft, hp, Bool.false_eq_true, if_false, if_true]
      omega
    · have hS := sum_map_set (Goroutine.stepsLeft w) s.gs i (Goroutine.sending [])
        Goroutine.finished hg
      simp only [Goroutine.stepsLeft, List.length_nil] at hS
      simp only [State.stepsLeft, hp, Bool.false_eq_true, if_false]
      omega

/-- A schedule that runs is no longer than the number of steps that were left. -/
theorem run_length_le {w : World F} (sched : List Action) {s t : State F}
    (h : run w newCloudflareCollector s sched = some t) :
    sched.length + t.stepsLeft w ≤ s.stepsLeft w := by
  induction sched generalizing s with
  | nil =>
    simp only [run, Option.some.injEq] at h
    subst h
    simp
  | cons a rest ih =>
    simp only [run] at h
    cases hs : step w newCloudflareCollector s a with
    | none => rw [hs] at h; cases h
    | some u =>
      rw [hs] at h
      have h1 := ih h
      have h2 := stepsLeft_lt hs
      simp only [List.length_cons]
      omega

/-- A goroutine that has not finished can take a step. -/
theorem step_of_active {w : World F} {s : State F} (hp : s.panicked = false) {i : Nat}
    {g : Goroutine F} (hg : s.gs[i]? = some g) (hne : g ≠ Goroutine.finished) :
    ∃ a t, step w newCloudflareCollector s a = some t := by
  cases g with
  | finished => exact absurd rfl hne
  | start ID name =>
    exact ⟨Action.fetch i, Option.isSome_iff_exists.mp (by
          simp only [step, hp, hg, Bool.false_eq_true, if_false, Option.isSome_some])⟩
  | sending p =>
    cases p with
    | nil =>
      by_cases hw : s.wg = 0
      · exact ⟨Action.done i, Option.isSome_iff_exists.mp (by
          simp only [step, hp, hg, hw, Bool.false_eq_true, if_false, if_true,
            Option.isSome_some])⟩
      · exact ⟨Action.done i, Option.isSome_iff_exists.mp (by
          simp only [step, hp, hg, hw, Bool.false_eq_true, if_false, Option.isSome_some])⟩
    | cons x rest =>
      cases x with
      | none =>
        exact ⟨Action.send i, Option.isSome_iff_exists.mp (by
          simp only [step, hp, hg, Bool.false_eq_true, if_false, Option.isSome_some])⟩
      | some m =>
        exact ⟨Action.send i, Option.isSome_iff_exists.mp (by
          simp only [step, hp, hg, Bool.false_eq_true, if_false, Option.isSome_some])⟩

/-- Until `Collect` has returned some routine can take a step: no reachable state is a
deadlock. -/
theorem Inv.progress {w : World F} {s : State F} (inv : Inv w s)
    (hret : s.main ≠ Main.returned) : ∃ a t, step w newCloudflareCollector s a = some t := by
  have hp := inv.notPanicked
  cases hm : s.main with
  | returned => exact absurd hm hret
  | spawning z rest =>
    exact ⟨Action.go, Option.isSome_iff_exists.mp (by
          simp only [step, hp, hm, Bool.false_eq_true, if_false, Option.isSome_some])⟩
  | loop todo =>
    cases todo with
    | cons z rest =>
      exact ⟨Action.add, Option.isSome_iff_exists.mp (by
          simp only [step, hp, hm, Bool.false_eq_true, if_false, Option.isSome_some])⟩
    | nil =>
      by_cases hw : s.wg = 0
      · exact ⟨Action.wait, Option.isSome_iff_exists.mp (by
          simp only [step, hp, hm, hw, Bool.false_eq_true, if_false, if_true,
            Option.isSome_some])⟩
      · have hex : ∃ g ∈ s.gs, g ≠ Goroutine.finished := by
          by_contra hall
          have hall' : ∀ g ∈ s.gs, g = Goroutine.finished := by
            intro g hg
            by_contra hne
            exact hall ⟨g, hg, hne⟩
          have h0 := active_zero_of_all_finished s.gs hall'
          have h1 := inv.wgCount
          rw [hm] at h1
          simp only [Main.adding] at h1
          omega
        obtain ⟨g, hg, hne⟩ := hex
        obtain ⟨i, hi⟩ := List.mem_iff_getElem?.mp hg
        exact step_of_active hp hi hne

/-- From every state that satisfies the invariant some schedule leads to the return of
`Collect`. -/
theorem Inv.returns {w : World F} (n : Nat) {s : State F} (inv : Inv w s)
    (hn : s.stepsLeft w ≤ n) :
    ∃ sched t, run w newCloudflareCollector s sched = some t ∧ t.main = Main.returned := by
  induction n generalizing s with
  | zero =>
    by_cases hret : s.main = Main.returned
    · exact ⟨[], s, rfl, hret⟩
    · obtain ⟨a, t, ht⟩ := inv.progress hret
      have := stepsLeft_lt ht
      omega
  | succ n ih =>
    by_cases hret : s.main = Main.returned
    · exact ⟨[], s, rfl, hret⟩
    · obtain ⟨a, t, ht⟩ := inv.progress hret
      have hlt := stepsLeft_lt ht
      obtain ⟨sched, u, hu, hur⟩ := ih (Inv_step a inv ht) (by omega)
      exact ⟨a :: sched, u, by simp only [run, ht, Option.some_bind]; exact hu, hur⟩

/-- `Collect` returns: for every world some schedule runs from the start of the loop to a
state behind `wg.Wait()`. -/
theorem Collect_returns (w : World F) :
    ∃ sched s, run w newCloudflareCollector (init w) sched = some s
      ∧ s.main = Main.returned :=
  (Inv_init w).returns _ (Nat.le_refl _)

end Consequences

/-! ## The descriptor catalog -/

/-- C6: `Describe` on the collector built by `newCloudflareCollector` sends exactly
sixteen descriptors on its channel, in the fixed order requests total, cached, uncached,
ssl_encrypted, ssl_unencrypted, content_type, country, status and then the same eight
for bandwidth, with the names, help texts and label names of `catalogLiteral`; a second
call sends the identical sequence again; `Describe` is total, it has no failing case. -/
theorem Describe_catalog :
    (∀ ch : List Desc, Describe newCloudflareCollector ch = ch ++ catalogLiteral)
    ∧ (∀ ch : List Desc,
        Describe newCloudflareCollector (Describe newCloudflareCollector ch)
          = (ch ++ catalogLiteral) ++ catalogLiteral)
    ∧ catalogLiteral.length = 16
    ∧ catalogLiteral.map (fun d => d.fqName) =
        [ "cloudflare_zone_requests_total", "cloudflare_zone_requests_cached",
          "cloudflare_zone_requests_uncached", "cloudflare_zone_requests_ssl_encrypted",
          "cloudflare_zone_requests_ssl_unencrypted", "cloudflare_zone_requests_content_type",
          "cloudflare_zone_requests_country", "cloudflare_zone_requests_status",
          "cloudflare_zone_bandwidth_total", "cloudflare_zone_bandwidth_cached",
          "cloudflare_zone_bandwidth_uncached", "cloudflare_zone_bandwidth_ssl_encrypted",
          "cloudflare_zone_bandwidth_ssl_unencrypted",
          "cloudflare_zone_bandwidth_content_type", "cloudflare_zone_bandwidth_country",
          "cloudflare_zone_bandwidth_status" ] :=
  ⟨fun _ => rfl, fun _ => rfl, rfl, rfl⟩

/-- The descriptors of the samples of a goroutine are among those that `Describe`
sends; the samples are counters; their label values are the zone name alone under a
descriptor with the one label `zone`, and the zone name and the key of an entry of the
request breakdown under a descriptor with two labels. -/
theorem zoneSamples_shape {F : Type} (w : World F) (zt : ZoneTotals) (name : String)
    (m : Metric F) (hm : m ∈ zoneSamples w newCloudflareCollector zt name) :
    m.desc ∈ catalog
    ∧ m.valType = ValueType.CounterValue
    ∧ ((m.desc.variableLabels = ["zone"] ∧ m.labelValues = [name])
      ∨ (m.desc.variableLabels = ["zone", "content_type"]
          ∧ ∃ e ∈ zt.Requests.ContentType.entries, m.labelValues = [name, e.1])
      ∨ (m.desc.variableLabels = ["zone", "country"]
          ∧ ∃ e ∈ zt.Requests.Country.entries, m.labelValues = [name, e.1])
      ∨ (m.desc.variableLabels = ["zone", "status"]
          ∧ ∃ e ∈ zt.Requests.HTTPStatus.entries, m.labelValues = [name, e.1])) := by
  rw [zoneSamples_eq] at hm
  simp only [List.mem_append, List.mem_map, List.mem_cons, List.mem_singleton,
    List.not_mem_nil, or_false] at hm
  rcases hm with ((((h | h | h | h | h) | ⟨e, he, h⟩) | ⟨e, he, h⟩) | ⟨e, he, h⟩)
    | h | h | h | h | h
  all_goals subst h
  all_goals refine ⟨by simp [catalog, Describe], rfl, ?_⟩
  · exact Or.inl ⟨rfl, rfl⟩
  · exact Or.inl ⟨rfl, rfl⟩
  · exact Or.inl ⟨rfl, rfl⟩
  · exact Or.inl ⟨rfl, rfl⟩
  · exact Or.inl ⟨rfl, rfl⟩
  · exact Or.inr (Or.inl ⟨rfl, e, he, rfl⟩)
  · exact Or.inr (Or.inr (Or.inl ⟨rfl, e, he, rfl⟩))
  · exact Or.inr (Or.inr (Or.inr ⟨rfl, e, he, rfl⟩))
  · exact Or.inl ⟨rfl, rfl⟩
  · exact Or.inl ⟨rfl, rfl⟩
  · exact Or.inl ⟨rfl, rfl⟩
  · exact Or.inl ⟨rfl, rfl⟩
  · exact Or.inl ⟨rfl, rfl⟩

/-- C7: the catalog built by `newCloudflareCollector` has sixteen descriptors with
pairwise distinct series names, eight whose name starts with
`cloudflare_zone_requests_` and eight whose name starts with
`cloudflare_zone_bandwidth_`, and in every state that `Collect` reaches the descriptor
of every metric on the channel is one of the sixteen. -/
theorem catalog_distinct_and_used {F : Type} (w : World F) (sched : List Action)
    (s : State F) (hrun : run w newCloudflareCollector (init w) sched = some s) :
    (catalog).length = 16
    ∧ ((catalog).map (fun d => d.fqName)).Nodup
    ∧ ((catalog).filter (fun d =>
          "cloudflare_zone_requests_".toList.isPrefixOf d.fqName.toList)).length = 8
    ∧ ((catalog).filter (fun d =>
          "cloudflare_zone_bandwidth_".toList.isPrefixOf d.fqName.toList)).length = 8
    ∧ ∀ m ∈ s.ch, m.desc ∈ catalog := by
  refine ⟨rfl, by decide, by decide, by decide, ?_⟩
  intro m hm
  obtain ⟨z, -, hz⟩ := (Inv_reach hrun).mem_ch hm
  exact (zoneSamples_shape w _ _ m hz).1

/-- Witness for C7: the interleaved run of the two-zone world. -/
theorem catalog_distinct_and_used_witness :
    run twoZoneWorld newCloudflareCollector (init twoZoneWorld) interleavedSchedule
      = some twoZoneFinal
    ∧ (catalog).length = 16
    ∧ ((catalog).map (fun d => d.fqName)).Nodup
    ∧ ((catalog).filter (fun d =>
          "cloudflare_zone_requests_".toList.isPrefixOf d.fqName.toList)).length = 8
    ∧ ((catalog).filter (fun d =>
          "cloudflare_zone_bandwidth_".toList.isPrefixOf d.fqName.toList)).length = 8
    ∧ ∀ m ∈ twoZoneFinal.ch, m.desc ∈ catalog :=
  ⟨by decide,
    catalog_distinct_and_used twoZoneWorld interleavedSchedule twoZoneFinal (by decide)⟩

/-! ## Value type and labels of the samples -/

/-- C8: in every state that `Collect` reaches, for every zone list and all totals,
every metric on the channel has the value type `CounterValue`. -/
theorem Collect_counter {F : Type} (w : World F) (sched : List Action) (s : State F)
    (hrun : run w newCloudflareCollector (init w) sched = some s) :
    ∀ m ∈ s.ch, m.valType = ValueType.CounterValue := by
  intro m hm
  obtain ⟨z, -, hz⟩ := (Inv_reach hrun).mem_ch hm
  exact (zoneSamples_shape w _ _ m hz).2.1

/-- Witness for C8: the interleaved run of the two-zone world. -/
theorem Collect_counter_witness :
    run twoZoneWorld newCloudflareCollector (init twoZoneWorld) interleavedSchedule
      = some twoZoneFinal
    ∧ ∀ m ∈ twoZoneFinal.ch, m.valType = ValueType.CounterValue :=
  ⟨by decide, Collect_counter twoZoneWorld interleavedSchedule twoZoneFinal (by decide)⟩

/-- C10: in every state that `Collect` reaches no panic has been raised, and every
metric on the channel has as many label values as its descriptor has label names,
position by position: the name of a zone under a descriptor declared with `zone`, and
the name of a zone and a key of that zone's request content-type, country or status
mapping under a descriptor declared with `zone` and `content_type`, `country` or
`status`. -/
theorem Collect_label_arity {F : Type} (w : World F) (sched : List Action) (s : State F)
    (hrun : run w newCloudflareCollector (init w) sched = some s) :
    s.panicked = false
    ∧ ∀ m ∈ s.ch,
        m.labelValues.length = m.desc.variableLabels.length
        ∧ ∃ z ∈ w.fetchZones,
            (m.desc.variableLabels = ["zone"] ∧ m.labelValues = [z.Name])
            ∨ (m.desc.variableLabels = ["zone", "content_type"]
                ∧ ∃ e ∈ (w.fetchZoneTotals z.ID).Requests.ContentType.entries,
                    m.labelValues = [z.Name, e.1])
            ∨ (m.desc.variableLabels = ["zone", "country"]
                ∧ ∃ e ∈ (w.fetchZoneTotals z.ID).Requests.Country.entries,
                    m.labelValues = [z.Name, e.1])
            ∨ (m.desc.variableLabels = ["zone", "status"]
                ∧ ∃ e ∈ (w.fetchZoneTotals z.ID).Requests.HTTPStatus.entries,
                    m.labelValues = [z.Name, e.1]) := by
  refine ⟨(Inv_reach hrun).notPanicked, ?_⟩
  intro m hm
  obtain ⟨z, hzmem, hz⟩ := (Inv_reach hrun).mem_ch hm
  have hshape := (zoneSamples_shape w _ _ m hz).2.2
  refine ⟨?_, z, hzmem, hshape⟩
  rcases hshape with ⟨h1, h2⟩ | ⟨h1, e, -, h2⟩ | ⟨h1, e, -, h2⟩ | ⟨h1, e, -, h2⟩
  all_goals rw [h1, h2]; rfl

/-- Witness for C10: the interleaved run of the two-zone world. -/
theorem Collect_label_arity_witness :
    run twoZoneWorld newCloudflareCollector (init twoZoneWorld) interleavedSchedule
      = some twoZoneFinal
    ∧ twoZoneFinal.panicked = false
    ∧ ∀ m ∈ twoZoneFinal.ch,
        m.labelValues.length = m.desc.variableLabels.length
        ∧ ∃ z ∈ twoZoneWorld.fetchZones,
            (m.desc.variableLabels = ["zone"] ∧ m.labelValues = [z.Name])
            ∨ (m.desc.variableLabels = ["zone", "content_type"]
                ∧ ∃ e ∈ (twoZoneWorld.fetchZoneTotals z.ID).Requests.ContentType.entries,
                    m.labelValues = [z.Name, e.1])
            ∨ (m.desc.variableLabels = ["zone", "country"]
                ∧ ∃ e ∈ (twoZoneWorld.fetchZoneTotals z.ID).Requests.Country.entries,
                    m.labelValues = [z.Name, e.1])
            ∨ (m.desc.variableLabels = ["zone", "status"]
                ∧ ∃ e ∈ (twoZoneWorld.fetchZoneTotals z.ID).Requests.HTTPStatus.entries,
                    m.labelValues = [z.Name, e.1]) :=
  ⟨by decide, Collect_label_arity twoZoneWorld interleavedSchedule twoZoneFinal (by decide)⟩

/-! ## The samples of one zone -/

/-- C1: `Collect` returns under some schedule, and whenever it has returned, under any
schedule, the samples that the goroutine of a zone `z` has sent start with the five
request samples total, cached, uncached, ssl_encrypted and ssl_unencrypted, with the
values of the totals fetched for `z.ID` (converted by `float64`) and the one label value
`z.Name`; then come one content_type sample for every
entry of `Requests.ContentType`, one country sample for every entry of
`Requests.Country` and one status sample for every entry of `Requests.HTTPStatus`, each
with the label values `z.Name` and the key and with the value of the entry. The zone
label is the name of the zone, not its id. -/
theorem Collect_request_samples {F : Type} (w : World F) (i : Nat) (z : Zone)
    (hz : w.fetchZones[i]? = some z) :
    (∃ sched s, run w newCloudflareCollector (init w) sched = some s
      ∧ s.main = Main.returned)
    ∧ ∀ (sched : List Action) (s : State F),
      run w newCloudflareCollector (init w) sched = some s → s.main = Main.returned →
      ∃ rest, (s.sentBy i).map Metric.sample =
      [ ("cloudflare_zone_requests_total",
          w.float64 (w.fetchZoneTotals z.ID).Requests.All, [z.Name]),
        ("cloudflare_zone_requests_cached",
          w.float64 (w.fetchZoneTotals z.ID).Requests.Cached, [z.Name]),
        ("cloudflare_zone_requests_uncached",
          w.float64 (w.fetchZoneTotals z.ID).Requests.Uncached, [z.Name]),
        ("cloudflare_zone_requests_ssl_encrypted",
          w.float64 (w.fetchZoneTotals z.ID).Requests.SSL.Encrypted, [z.Name]),
        ("cloudflare_zone_requests_ssl_unencrypted",
          w.float64 (w.fetchZoneTotals z.ID).Requests.SSL.Unencrypted, [z.Name]) ]
      ++ (w.fetchZoneTotals z.ID).Requests.ContentType.entries.map (fun e =>
          ("cloudflare_zone_requests_content_type", w.float64 e.2, [z.Name, e.1]))
      ++ (w.fetchZoneTotals z.ID).Requests.Country.entries.map (fun e =>
          ("cloudflare_zone_requests_country", w.float64 e.2, [z.Name, e.1]))
      ++ (w.fetchZoneTotals z.ID).Requests.HTTPStatus.entries.map (fun e =>
          ("cloudflare_zone_requests_status", w.float64 e.2, [z.Name, e.1]))
      ++ rest := by
  refine ⟨Collect_returns w, ?_⟩
  intro sched s hrun hret
  rw [(Inv_reach hrun).sentBy_eq hret hz, zoneSamples_eq]
  refine ⟨[ ("cloudflare_zone_bandwidth_total",
              w.float64 (w.fetchZoneTotals z.ID).Bandwidth.All, [z.Name]),
            ("cloudflare_zone_bandwidth_cached",
              w.float64 (w.fetchZoneTotals z.ID).Bandwidth.Cached, [z.Name]),
            ("cloudflare_zone_bandwidth_uncached",
              w.float64 (w.fetchZoneTotals z.ID).Bandwidth.Uncached, [z.Name]),
            ("cloudflare_zone_bandwidth_ssl_encrypted",
              w.float64 (w.fetchZoneTotals z.ID).Bandwidth.SSL.Encrypted, [z.Name]),
            ("cloudflare_zone_bandwidth_ssl_unencrypted",
              w.float64 (w.fetchZoneTotals z.ID).Bandwidth.SSL.Unencrypted, [z.Name]) ], ?_⟩
  simp [Metric.sample, newCloudflareCollector, NewDesc, Function.comp_def]

/-- Witness for C1: the first zone of the two-zone world after the interleaved run. -/
theorem Collect_request_samples_witness :
    run twoZoneWorld newCloudflareCollector (init twoZoneWorld) interleavedSchedule
      = some twoZoneFinal
    ∧ twoZoneFinal.main = Main.returned
    ∧ twoZoneWorld.fetchZones[0]? = some { ID := "z1", Name := "example.com" }
    ∧ ∃ rest, (twoZoneFinal.sentBy 0).map Metric.sample =
        [ ("cloudflare_zone_requests_total", 13, ["example.com"]),
          ("cloudflare_zone_requests_cached", 8, ["example.com"]),
          ("cloudflare_zone_requests_uncached", 5, ["example.com"]),
          ("cloudflare_zone_requests_ssl_encrypted", 13, ["example.com"]),
          ("cloudflare_zone_requests_ssl_unencrypted", 0, ["example.com"]),
          ("cloudflare_zone_requests_content_type", 10, ["example.com", "text/html"]),
          ("cloudflare_zone_requests_content_type", 3, ["example.com", "image/png"]) ]
        ++ rest :=
  ⟨by decide, by decide, by decide,
    (Collect_request_samples twoZoneWorld 0 { ID := "z1", Name := "example.com" }
      (by decide)).2 interleavedSchedule twoZoneFinal (by decide) (by decide)⟩

/-- The samples under one of the three request breakdown descriptors, read off the
samples of a goroutine. -/
theorem samplesUnder_zoneSamples {F : Type} (w : World F) (zt : ZoneTotals) (name : String) :
    samplesUnder newCloudflareCollector.zoneRequestContentType
        (zoneSamples w newCloudflareCollector zt name)
      = zt.Requests.ContentType.entries.map (fun e => ([name, e.1], w.float64 e.2))
    ∧ samplesUnder newCloudflareCollector.zoneRequestCountry
        (zoneSamples w newCloudflareCollector zt name)
      = zt.Requests.Country.entries.map (fun e => ([name, e.1], w.float64 e.2))
    ∧ samplesUnder newCloudflareCollector.zoneRequestHTTPStatus
        (zoneSamples w newCloudflareCollector zt name)
      = zt.Requests.HTTPStatus.entries.map (fun e => ([name, e.1], w.float64 e.2)) := by
  rw [zoneSamples_eq]
  refine ⟨?_, ?_, ?_⟩ <;>
    simp [samplesUnder, newCloudflareCollector, NewDesc, List.filter_append, List.filter_map,
      Function.comp_def, List.filter_cons]

/-- The label values `[name, key]` of the entries of a map are pairwise distinct. -/
theorem labels_nodup (name : String) (m : GoMap) :
    (m.entries.map (fun e => [name, e.1])).Nodup := by
  have h := m.nodup
  have hinj : Function.Injective (fun k : String => [name, k]) := by
    intro a b hab
    simpa using hab
  have := h.map hinj
  simpa [List.map_map, Function.comp_def] using this

/-- C4: `Collect` returns under some schedule, and whenever it has returned, under any
schedule, the samples that the goroutine of a zone `z` has sent under the request
content_type descriptor are, as (label values, value), exactly
the entries of `Requests.ContentType` of the totals fetched for `z.ID`, one for each
entry in the order of the `range` loop, with label values `z.Name` and the key of the
entry and with the value of the entry (converted by `float64`); no key occurs twice;
none is added and none is dropped. The same holds for `Requests.Country` under the
country descriptor and for `Requests.HTTPStatus` under the status descriptor. -/
theorem Collect_request_breakdowns {F : Type} (w : World F) (i : Nat) (z : Zone)
    (hz : w.fetchZones[i]? = some z) :
    (∃ sched s, run w newCloudflareCollector (init w) sched = some s
      ∧ s.main = Main.returned)
    ∧ ∀ (sched : List Action) (s : State F),
      run w newCloudflareCollector (init w) sched = some s → s.main = Main.returned →
    (samplesUnder newCloudflareCollector.zoneRequestContentType (s.sentBy i)
        = (w.fetchZoneTotals z.ID).Requests.ContentType.entries.map
            (fun e => ([z.Name, e.1], w.float64 e.2))
      ∧ ((samplesUnder newCloudflareCollector.zoneRequestContentType (s.sentBy i)).map
            (fun p => p.1)).Nodup)
    ∧ (samplesUnder newCloudflareCollector.zoneRequestCountry (s.sentBy i)
        = (w.fetchZoneTotals z.ID).Requests.Country.entries.map
            (fun e => ([z.Name, e.1], w.float64 e.2))
      ∧ ((samplesUnder newCloudflareCollector.zoneRequestCountry (s.sentBy i)).map
            (fun p => p.1)).Nodup)
    ∧ (samplesUnder newCloudflareCollector.zoneRequestHTTPStatus (s.sentBy i)
        = (w.fetchZoneTotals z.ID).Requests.HTTPStatus.entries.map
            (fun e => ([z.Name, e.1], w.float64 e.2))
      ∧ ((samplesUnder newCloudflareCollector.zoneRequestHTTPStatus (s.sentBy i)).map
            (fun p => p.1)).Nodup) := by
  refine ⟨Collect_returns w, ?_⟩
  intro sched s hrun hret
  rw [(Inv_reach hrun).sentBy_eq hret hz]
  obtain ⟨h1, h2, h3⟩ := samplesUnder_zoneSamples w (w.fetchZoneTotals z.ID) z.Name
  rw [h1, h2, h3]
  refine ⟨⟨rfl, ?_⟩, ⟨rfl, ?_⟩, ⟨rfl, ?_⟩⟩
  all_goals
    simp only [List.map_map, Function.comp_def]
    exact labels_nodup _ _

/-- Witness for C4: the content types `{"text/html": 10, "image/png": 3}` of the first
zone of the two-zone world give exactly the two content_type samples. -/
theorem Collect_request_breakdowns_witness :
    run twoZoneWorld newCloudflareCollector (init twoZoneWorld) interleavedSchedule
      = some twoZoneFinal
    ∧ twoZoneFinal.main = Main.returned
    ∧ twoZoneWorld.fetchZones[0]? = some { ID := "z1", Name := "example.com" }
    ∧ samplesUnder newCloudflareCollector.zoneRequestContentType (twoZoneFinal.sentBy 0)
        = [ (["example.com", "text/html"], 10), (["example.com", "image/png"], 3) ] :=
  ⟨by decide, by decide, by decide,
    ((Collect_request_breakdowns twoZoneWorld 0 { ID := "z1", Name := "example.com" }
      (by decide)).2 interleavedSchedule twoZoneFinal (by decide) (by decide)).1.1⟩

/-! ## No zones -/

/-- C5: when `fetchZones` returns the empty list, `Collect` can pass `wg.Wait()` at once
and returns, and that is the only step it can take; in every state it reaches the
channel is empty, `fetchZoneTotals` has not been called, no goroutine exists, the
counter of the wait group is zero and no panic has been raised. -/
theorem Collect_no_zones {F : Type} (w : World F) (hzones : w.fetchZones = []) :
    run w newCloudflareCollector (init w) [Action.wait]
      = some (State.mk Main.returned 0 [] [] [] false)
    ∧ ∀ (sched : List Action) (s : State F),
        run w newCloudflareCollector (init w) sched = some s →
        (sched = [] ∨ sched = [Action.wait])
        ∧ s.ch = [] ∧ s.fetched = [] ∧ s.gs = [] ∧ s.wg = 0 ∧ s.panicked = false := by
  have hinit : init w = State.mk (Main.loop []) 0 [] [] [] false := by
    simp [init, hzones]
  refine ⟨by rw [hinit]; rfl, ?_⟩
  intro sched s hrun
  have hlen := run_length_le sched hrun
  have hsteps : (init w).stepsLeft w = 1 := by
    rw [hinit]
    rfl
  rw [hsteps] at hlen
  cases sched with
  | nil =>
    simp only [run, Option.some.injEq] at hrun
    subst hrun
    rw [hinit]
    exact ⟨Or.inl rfl, rfl, rfl, rfl, rfl, rfl⟩
  | cons a rest =>
    cases rest with
    | cons b rest' =>
      simp only [List.length_cons] at hlen
      omega
    | nil =>
      simp only [run] at hrun
      rw [hinit] at hrun
      cases a with
      | wait =>
        simp only [step, Bool.false_eq_true, if_false, if_true, Option.some_bind,
          Option.some.injEq] at hrun
        subst hrun
        exact ⟨Or.inr rfl, rfl, rfl, rfl, rfl, rfl⟩
      | add => simp [step] at hrun
      | go => simp [step] at hrun
      | fetch i => simp [step] at hrun
      | send i => simp [step] at hrun
      | done i => simp [step] at hrun

/-- Witness for C5: the world without zones. -/
theorem Collect_no_zones_witness :
    emptyWorld.fetchZones = []
    ∧ run emptyWorld newCloudflareCollector (init emptyWorld) [Action.wait]
      = some (State.mk Main.returned 0 [] [] [] false) :=
  ⟨rfl, (Collect_no_zones emptyWorld rfl).1⟩

/-! ## The wait group -/

/-- C9: in every state that `Collect` reaches, the counter of the wait group is the
number of goroutines that were started and have not run their `wg.Done()`, plus one
while the main routine stands between `wg.Add(1)` and the `go` statement. Hence
`wg.Wait()` can only return when every goroutine is past its `wg.Done()`; once `Collect`
has returned there is one goroutine for every zone, each past its `wg.Done()` with all
the samples of its zone sent; when the loop is over and every goroutine is past its
`wg.Done()`, `wg.Wait()` returns; from every reachable state some schedule leads to the
return of `Collect`, and no schedule is longer than the steps there are to take. -/
theorem Collect_join_barrier {F : Type} (w : World F) (sched : List Action) (s : State F)
    (hrun : run w newCloudflareCollector (init w) sched = some s) :
    s.wg = (s.gs.map Goroutine.active).sum + s.main.adding
    ∧ (∀ t, step w newCloudflareCollector s Action.wait = some t →
        ∀ g ∈ s.gs, g = Goroutine.finished)
    ∧ (s.main = Main.returned →
        s.gs.length = w.fetchZones.length
        ∧ ∀ (i : Nat) (z : Zone), w.fetchZones[i]? = some z →
            s.gs[i]? = some Goroutine.finished
            ∧ s.sentBy i = zoneSamples w newCloudflareCollector (w.fetchZoneTotals z.ID) z.Name)
    ∧ (s.main = Main.loop [] → (∀ g ∈ s.gs, g = Goroutine.finished) →
        ∃ t, step w newCloudflareCollector s Action.wait = some t ∧ t.main = Main.returned)
    ∧ (∃ more t, run w newCloudflareCollector s more = some t ∧ t.main = Main.returned)
    ∧ sched.length ≤ 1 + (w.fetchZones.map (fun z => (unitOf w z).length + 4)).sum := by
  have inv := Inv_reach hrun
  refine ⟨inv.wgCount, ?_, ?_, ?_, ?_, ?_⟩
  · intro t ht
    obtain ⟨-, hm, hw, -⟩ := step_wait ht
    apply all_finished_of_active_zero
    have := inv.wgCount
    omega
  · intro hret
    refine ⟨inv.length_gs hret, ?_⟩
    intro i z hz
    refine ⟨?_, inv.sentBy_eq hret hz⟩
    have hlt : i < s.gs.length := by
      rw [inv.length_gs hret]
      exact (List.getElem?_eq_some_iff.mp hz).1
    rw [List.getElem?_eq_getElem hlt]
    exact congrArg some (inv.all_finished hret _ (List.getElem_mem _))
  · intro hm hall
    have h0 := active_zero_of_all_finished s.gs hall
    have h1 := inv.wgCount
    rw [hm] at h1
    simp only [Main.adding] at h1
    have hw : s.wg = 0 := by omega
    refine ⟨{ s with main := Main.returned }, ?_, rfl⟩
    simp only [step, inv.notPanicked, hm, hw, Bool.false_eq_true, if_false, if_true]
  · exact inv.returns (s.stepsLeft w) (Nat.le_refl _)
  · have h := run_length_le sched hrun
    have hi : (init w).stepsLeft w
        = 1 + (w.fetchZones.map (fun z => (unitOf w z).length + 4)).sum := by
      simp only [State.stepsLeft, init, Main.stepsLeft, Bool.false_eq_true, if_false,
        List.map_nil, List.sum_nil]
      omega
    omega

/-- Witness for C9: the two-zone world in the middle of the interleaved run, with both
goroutines sending and the main routine at `wg.Wait()`: the counter is two and
`wg.Wait()` cannot return. -/
theorem Collect_join_barrier_witness :
    run twoZoneWorld newCloudflareCollector (init twoZoneWorld) (interleavedSchedule.take 11)
      = some twoZoneMiddle
    ∧ twoZoneMiddle.main = Main.loop []
    ∧ step twoZoneWorld newCloudflareCollector twoZoneMiddle Action.wait = none
    ∧ twoZoneMiddle.wg = (twoZoneMiddle.gs.map Goroutine.active).sum + twoZoneMiddle.main.adding
    ∧ twoZoneMiddle.wg = 2 :=
  ⟨by decide, by decide, by decide,
    (Collect_join_barrier twoZoneWorld (interleavedSchedule.take 11) twoZoneMiddle
      (by decide)).1,
    by decide⟩

/-! ## Bandwidth: what `Collect` sends and what it leaves out -/

/-- No goroutine sends a sample under one of the three bandwidth breakdown descriptors
of the catalog. -/
theorem zoneSamples_no_bandwidth_breakdown {F : Type} (w : World F) (zt : ZoneTotals)
    (name : String) (m : Metric F) (hm : m ∈ zoneSamples w newCloudflareCollector zt name) :
    m.desc ≠ newCloudflareCollector.zoneBandwidthContentType
    ∧ m.desc ≠ newCloudflareCollector.zoneBandwidthCountry
    ∧ m.desc ≠ newCloudflareCollector.zoneBandwidthHTTPStatus := by
  rw [zoneSamples_eq] at hm
  simp only [List.mem_append, List.mem_map, List.mem_cons, List.mem_singleton,
    List.not_mem_nil, or_false] at hm
  rcases hm with ((((h | h | h | h | h) | ⟨e, he, h⟩) | ⟨e, he, h⟩) | ⟨e, he, h⟩)
    | h | h | h | h | h
  all_goals subst h
  all_goals simp [newCloudflareCollector, NewDesc]

/-- In no state that `Collect` reaches does the channel hold a sample under one of the
three bandwidth breakdown descriptors, whatever the bandwidth breakdowns of the totals
contain. -/
theorem Collect_no_bandwidth_breakdown {F : Type} (w : World F) (sched : List Action)
    (s : State F) (hrun : run w newCloudflareCollector (init w) sched = some s) :
    ∀ m ∈ s.ch,
      m.desc ≠ newCloudflareCollector.zoneBandwidthContentType
      ∧ m.desc ≠ newCloudflareCollector.zoneBandwidthCountry
      ∧ m.desc ≠ newCloudflareCollector.zoneBandwidthHTTPStatus := by
  intro m hm
  obtain ⟨z, -, hz⟩ := (Inv_reach hrun).mem_ch hm
  exact zoneSamples_no_bandwidth_breakdown w _ _ m hz

/-- When `Collect` has returned, the number of metrics on the channel is, summed over the
zones, ten plus the sizes of the three request breakdowns. -/
theorem Collect_sample_count {F : Type} (w : World F) (sched : List Action) (s : State F)
    (hrun : run w newCloudflareCollector (init w) sched = some s)
    (hret : s.main = Main.returned) :
    s.ch.length = (w.fetchZones.map (fun z =>
      10 + (w.fetchZoneTotals z.ID).Requests.ContentType.entries.length
        + (w.fetchZoneTotals z.ID).Requests.Country.entries.length
        + (w.fetchZoneTotals z.ID).Requests.HTTPStatus.entries.length)).sum :=
  (Inv_reach hrun).length_ch hret

/-- With a single goroutine the channel holds what that goroutine has sent. -/
theorem Inv.ch_eq_sentBy_zero {F : Type} {w : World F} {s : State F} (inv : Inv w s)
    (hlen : s.gs.length ≤ 1) : s.ch = s.sentBy 0 := by
  have hall : ∀ e ∈ s.sent, ((fun e : Nat × Metric F => e.1 == 0) e) = true := by
    intro e he
    by_contra hne
    have hpos : 1 ≤ e.1 := by
      simp only [beq_iff_eq] at hne
      omega
    have hfresh := inv.fresh e.1 (by omega)
    have hmem : e.2 ∈ s.sentBy e.1 := by
      simp only [State.sentBy, List.mem_map, List.mem_filter]
      exact ⟨e, ⟨he, by simp⟩, rfl⟩
    rw [hfresh] at hmem
    cases hmem
  simp only [State.ch, State.sentBy]
  rw [List.filter_eq_self.mpr hall]

/-- C2, on the end-to-end scenario (one zone `z1`, `example.com`, whose bandwidth group
has the entries `text/html`, `US` and `200` in its three breakdowns): `Collect` returns
under some schedule, and whenever it has returned, under any schedule, the channel holds
the eight request samples and then the five scalar bandwidth samples and nothing else.
No `cloudflare_zone_bandwidth_content_type`, `cloudflare_zone_bandwidth_country` or
`cloudflare_zone_bandwidth_status` sample is sent. -/
theorem Collect_example_samples :
    (∃ sched s, run exampleWorld newCloudflareCollector (init exampleWorld) sched = some s
      ∧ s.main = Main.returned)
    ∧ ∀ (sched : List Action) (s : State Nat),
      run exampleWorld newCloudflareCollector (init exampleWorld) sched = some s →
      s.main = Main.returned →
    s.ch.map Metric.sample =
      [ ("cloudflare_zone_requests_total", 100, ["example.com"]),
        ("cloudflare_zone_requests_cached", 60, ["example.com"]),
        ("cloudflare_zone_requests_uncached", 40, ["example.com"]),
        ("cloudflare_zone_requests_ssl_encrypted", 90, ["example.com"]),
        ("cloudflare_zone_requests_ssl_unencrypted", 10, ["example.com"]),
        ("cloudflare_zone_requests_content_type", 100, ["example.com", "text/html"]),
        ("cloudflare_zone_requests_country", 100, ["example.com", "US"]),
        ("cloudflare_zone_requests_status", 100, ["example.com", "200"]),
        ("cloudflare_zone_bandwidth_total", 5000, ["example.com"]),
        ("cloudflare_zone_bandwidth_cached", 3000, ["example.com"]),
        ("cloudflare_zone_bandwidth_uncached", 2000, ["example.com"]),
        ("cloudflare_zone_bandwidth_ssl_encrypted", 4500, ["example.com"]),
        ("cloudflare_zone_bandwidth_ssl_unencrypted", 500, ["example.com"]) ] := by
  refine ⟨Collect_returns exampleWorld, ?_⟩
  intro sched s hrun hret
  have inv := Inv_reach hrun
  have hlen : s.gs.length = 1 := inv.length_gs hret
  have hz : exampleWorld.fetchZones[0]? = some { ID := "z1", Name := "example.com" } := rfl
  rw [inv.ch_eq_sentBy_zero (by omega), inv.sentBy_eq hret hz]
  decide

/-- The sequential run of the end-to-end scenario, for C2. -/
theorem Collect_example_samples_witness :
    run exampleWorld newCloudflareCollector (init exampleWorld)
        (seqSchedule exampleWorld newCloudflareCollector) = some exampleFinal
    ∧ exampleFinal.main = Main.returned
    ∧ exampleFinal.ch.map Metric.sample =
      [ ("cloudflare_zone_requests_total", 100, ["example.com"]),
        ("cloudflare_zone_requests_cached", 60, ["example.com"]),
        ("cloudflare_zone_requests_uncached", 40, ["example.com"]),
        ("cloudflare_zone_requests_ssl_encrypted", 90, ["example.com"]),
        ("cloudflare_zone_requests_ssl_unencrypted", 10, ["example.com"]),
        ("cloudflare_zone_requests_content_type", 100, ["example.com", "text/html"]),
        ("cloudflare_zone_requests_country", 100, ["example.com", "US"]),
        ("cloudflare_zone_requests_status", 100, ["example.com", "200"]),
        ("cloudflare_zone_bandwidth_total", 5000, ["example.com"]),
        ("cloudflare_zone_bandwidth_cached", 3000, ["example.com"]),
        ("cloudflare_zone_bandwidth_uncached", 2000, ["example.com"]),
        ("cloudflare_zone_bandwidth_ssl_encrypted", 4500, ["example.com"]),
        ("cloudflare_zone_bandwidth_ssl_unencrypted", 500, ["example.com"]) ] :=
  ⟨by decide, by decide,
    Collect_example_samples.2 (seqSchedule exampleWorld newCloudflareCollector) exampleFinal
      (by decide) (by decide)⟩

/-- C3, on the end-to-end scenario (one zone whose request and bandwidth groups each
have one content-type, one country and one status entry): `Collect` returns under some
schedule, and whenever it has returned, under any schedule, the channel holds thirteen
metrics, eight request samples and five bandwidth
samples, and not sixteen. -/
theorem Collect_example_count :
    (∃ sched s, run exampleWorld newCloudflareCollector (init exampleWorld) sched = some s
      ∧ s.main = Main.returned)
    ∧ ∀ (sched : List Action) (s : State Nat),
      run exampleWorld newCloudflareCollector (init exampleWorld) sched = some s →
      s.main = Main.returned →
    s.ch.length = 13
    ∧ (s.ch.filter (fun m =>
        "cloudflare_zone_requests_".toList.isPrefixOf m.desc.fqName.toList)).length = 8
    ∧ (s.ch.filter (fun m =>
        "cloudflare_zone_bandwidth_".toList.isPrefixOf m.desc.fqName.toList)).length = 5
    ∧ s.ch.length ≠ 16 := by
  refine ⟨Collect_returns exampleWorld, ?_⟩
  intro sched s hrun hret
  have inv := Inv_reach hrun
  have hlen : s.gs.length = 1 := inv.length_gs hret
  have hz : exampleWorld.fetchZones[0]? = some { ID := "z1", Name := "example.com" } := rfl
  rw [inv.ch_eq_sentBy_zero (by omega), inv.sentBy_eq hret hz]
  decide

/-- The sequential run of the end-to-end scenario, for C3. -/
theorem Collect_example_count_witness :
    run exampleWorld newCloudflareCollector (init exampleWorld)
        (seqSchedule exampleWorld newCloudflareCollector) = some exampleFinal
    ∧ exampleFinal.main = Main.returned
    ∧ exampleFinal.ch.length = 13 :=
  ⟨by decide, by decide,
    (Collect_example_count.2 (seqSchedule exampleWorld newCloudflareCollector) exampleFinal
      (by decide) (by decide)).1⟩

end CloudflareExporter
